import Mathlib

set_option maxRecDepth 100000

/-!
Verification of the ai-img-gen response extractor, batch runner and collaborators.

Shallow embedding of the image-extraction and bulk-processing core of the
repository.  JavaScript strings are modelled as `List Char` (`Str`), JSON
values as `JsValue` (with an explicit `undefined` for JavaScript's `undefined`,
which property access on a non-object produces), and operations that can
throw in JavaScript are modelled in `Except JsErr`.

Embedded source files:
* `src/services/imageResponseHandler.ts` — `extractImageFromResponse`,
  `validateImageData`, `processImageResponse`, `checkUserCredits`,
  `CREDIT_COSTS` (the "live" extractor, which probes only the `image` key);
* the centralized response handler (`src/unnamed/part_010`) —
  `extractImageFromResponse` returning `\x7b success, imageBase64?, error? \x7d`
  and the surrounding `handleImageGenerationRequest` pipeline (namespace `RH`);
* `src/hooks/useImageHistory.ts` — `addToHistory`, `MAX_HISTORY_ITEMS`;
* `src/components/BulkProcessingModal.tsx` — `startBulkProcessing` /
  `processItem` (the sequential batch loop, with the per-item HTTP +
  extraction settlement abstracted as a `submit` oracle).
-/

/-- JavaScript strings, modelled as lists of characters. -/
abbrev Str := List Char

/-- Base64 alphabet `[A-Za-z0-9+/]` (without the `=` padding character). -/
def isB64Char (c : Char) : Bool :=
  let n := c.toNat
  (65 ≤ n && n ≤ 90) || (97 ≤ n && n ≤ 122) || (48 ≤ n && n ≤ 57) || n == 43 || n == 47

/-- JavaScript `\s` character class (also the set trimmed by `String.prototype.trim`):
ASCII whitespace, NBSP, BOM, and the Unicode space separators / line terminators. -/
def jsWsChar (c : Char) : Bool :=
  let n := c.toNat
  (9 ≤ n && n ≤ 13) || n == 32 || n == 160 || n == 0x1680 ||
  (0x2000 ≤ n && n ≤ 0x200A) || n == 0x2028 || n == 0x2029 ||
  n == 0x202F || n == 0x205F || n == 0x3000 || n == 0xFEFF

/-- JSON insignificant whitespace: space, tab, line feed, carriage return. -/
def jsonWsChar (c : Char) : Bool :=
  let n := c.toNat
  n == 32 || n == 9 || n == 10 || n == 13

/-- ASCII whitespace stripped by the forgiving-base64 decode used by `atob`. -/
def asciiWsChar (c : Char) : Bool :=
  let n := c.toNat
  n == 9 || n == 10 || n == 12 || n == 13 || n == 32

def isDigitChar (c : Char) : Bool :=
  48 ≤ c.toNat && c.toNat ≤ 57

def isHexChar (c : Char) : Bool :=
  let n := c.toNat
  (48 ≤ n && n ≤ 57) || (65 ≤ n && n ≤ 70) || (97 ≤ n && n ≤ 102)

/-- `String.prototype.trim`: drop leading and trailing JS whitespace. -/
def jsTrim (s : Str) : Str :=
  ((s.dropWhile jsWsChar).reverse.dropWhile jsWsChar).reverse

/-- `replace(/[\s\n\r\t]/g, '')`: remove every JS whitespace character. -/
def removeWs (s : Str) : Str :=
  s.filter (fun c => !jsWsChar c)

/-- `String.prototype.split(sep)` for a one-character separator. -/
def splitOnChar (sep : Char) : Str → List Str
  | [] => [[]]
  | c :: rest =>
    if c = sep then [] :: splitOnChar sep rest
    else match splitOnChar sep rest with
      | [] => [[c]]
      | h :: t => (c :: h) :: t

/-- The regex `^[A-Za-z0-9+/]*={0,2}$` from `validateImageData` and the
centralized handler: a run of base64-alphabet characters followed by at most
two `=` padding characters. -/
def b64Shape (s : Str) : Bool :=
  let rev := s.reverse
  let pads := rev.takeWhile (fun c => c == '=')
  pads.length ≤ 2 && (rev.dropWhile (fun c => c == '=')).all isB64Char

/-- Remove one or two trailing `=` padding characters (at most two, even if
more are present), as the forgiving-base64 decode does. -/
def dropB64Pads (t : Str) : Str :=
  (t.reverse.drop (min (t.reverse.takeWhile (fun c => c == '=')).length 2)).reverse

/-- Validity test of the forgiving-base64 decode performed by `atob`:
strip ASCII whitespace, then up to two trailing `=` when the length is a
multiple of four; the rest must have length ≢ 1 (mod 4) and consist of
base64-alphabet characters. `atob` throws exactly when this is `false`. -/
def atobOk (s : Str) : Bool :=
  let t := s.filter (fun c => !asciiWsChar c)
  let t := if t.length % 4 == 0 then dropB64Pads t else t
  t.length % 4 ≠ 1 && t.all isB64Char

/-- Left brace character (written via its code point). -/
def lb : Char := Char.ofNat 123

/-- Right brace character (written via its code point). -/
def rb : Char := Char.ofNat 125

/-- JavaScript values produced by `JSON.parse`, plus `undefined` for the
`undefined` that property access on a non-object / absent key yields.
Numbers keep their source token (their numeric value is never used by the
extraction code, only their truthiness). -/
inductive JsValue where
  | null : JsValue
  | undefined : JsValue
  | bool : Bool → JsValue
  | num : Str → JsValue
  | str : Str → JsValue
  | arr : List JsValue → JsValue
  | obj : List (Str × JsValue) → JsValue
deriving BEq

/-- JavaScript truthiness of a `JsValue`.  A number token is falsy when it
denotes zero (`0`, `-0`, `0.0`, `0e5`, …), i.e. when it has no nonzero digit
before the exponent part. -/
def jsTruthy : JsValue → Bool
  | .null => false
  | .undefined => false
  | .bool b => b
  | .num tok =>
    let mantissa := tok.takeWhile (fun c => c ≠ 'e' && c ≠ 'E')
    mantissa.any (fun c => isDigitChar c && c ≠ '0')
  | .str s => s ≠ []
  | .arr _ => true
  | .obj _ => true

/-- Property read `v[k]`, total: absent keys and non-object receivers give
`undefined` (reads on `null`/`undefined`, which throw in JavaScript, only occur
guarded in the embedded code; the `Except` variant below models the throw). -/
def jsGetProp : JsValue → Str → JsValue
  | .obj fields, k =>
    match fields.reverse.find? (fun p => p.1 == k) with
    | some p => p.2
    | none => .undefined
  | _, _ => .undefined

/-- `typeof v === 'object'` (true for objects, arrays and `null`). -/
def jsTypeofObject : JsValue → Bool
  | .obj _ => true
  | .arr _ => true
  | .null => true
  | _ => false

/-- `typeof v === 'string'`. -/
def jsTypeofString : JsValue → Bool
  | .str _ => true
  | _ => false

/-! ## JSON.parse

A model of JavaScript's `JSON.parse`, used by the extractors (directly and
through their callers).  Fuel-based recursive descent; number values keep
their token text.  (`\uXXXX` escapes in the surrogate range fall back to
`Char.ofNat`'s default, a divergence irrelevant to the embedded code, which
never inspects parsed string contents beyond length and key probing.) -/

def skipJsonWs (s : Str) : Str := s.dropWhile jsonWsChar

def hexVal (c : Char) : Nat :=
  if c.toNat ≤ 57 then c.toNat - 48
  else if c.toNat ≤ 70 then c.toNat - 55
  else c.toNat - 87

def parseStringBody (fuel : Nat) (cs : Str) (acc : Str) : Option (Str × Str) :=
  match fuel with
  | 0 => none
  | fuel + 1 =>
    match cs with
    | [] => none
    | c :: rest =>
      if c = '"' then some (acc.reverse, rest)
      else if c = '\\' then
        match rest with
        | [] => none
        | e :: rest2 =>
          if e = '"' then parseStringBody fuel rest2 ('"' :: acc)
          else if e = '\\' then parseStringBody fuel rest2 ('\\' :: acc)
          else if e = '/' then parseStringBody fuel rest2 ('/' :: acc)
          else if e = 'b' then parseStringBody fuel rest2 (Char.ofNat 8 :: acc)
          else if e = 'f' then parseStringBody fuel rest2 (Char.ofNat 12 :: acc)
          else if e = 'n' then parseStringBody fuel rest2 ('\n' :: acc)
          else if e = 'r' then parseStringBody fuel rest2 (Char.ofNat 13 :: acc)
          else if e = 't' then parseStringBody fuel rest2 ('\t' :: acc)
          else if e = 'u' then
            match rest2 with
            | h1 :: h2 :: h3 :: h4 :: rest3 =>
              if isHexChar h1 && isHexChar h2 && isHexChar h3 && isHexChar h4 then
                parseStringBody fuel rest3
                  (Char.ofNat (4096 * hexVal h1 + 256 * hexVal h2 + 16 * hexVal h3 + hexVal h4) :: acc)
              else none
            | _ => none
          else none
      else if c.toNat < 32 then none
      else parseStringBody fuel rest (c :: acc)

def parseFrac (cs : Str) : Option (Str × Str) :=
  match cs with
  | '.' :: r =>
    let ds := r.takeWhile isDigitChar
    if ds = [] then none else some ('.' :: ds, r.drop ds.length)
  | _ => some ([], cs)

def parseExp (cs : Str) : Option (Str × Str) :=
  match cs with
  | c :: r =>
    if c = 'e' ∨ c = 'E' then
      let p : Str × Str := match r with
        | '+' :: rr => (['+'], rr)
        | '-' :: rr => (['-'], rr)
        | _ => ([], r)
      let ds := p.2.takeWhile isDigitChar
      if ds = [] then none else some (c :: p.1 ++ ds, p.2.drop ds.length)
    else some ([], cs)
  | [] => some ([], [])

def parseNumberTok (cs : Str) : Option (Str × Str) :=
  let p : Str × Str := match cs with
    | '-' :: r => (['-'], r)
    | _ => ([], cs)
  match p.2 with
  | [] => none
  | c :: rest =>
    if isDigitChar c = false then none
    else
      let intp : Str := if c = '0' then ['0'] else p.2.takeWhile isDigitChar
      let rest1 := if c = '0' then rest else p.2.drop (p.2.takeWhile isDigitChar).length
      match parseFrac rest1 with
      | none => none
      | some (fr, rest2) =>
        match parseExp rest2 with
        | none => none
        | some (ex, rest3) => some (p.1 ++ intp ++ fr ++ ex, rest3)

mutual

def parseValue (fuel : Nat) (cs : Str) : Option (JsValue × Str) :=
  match fuel with
  | 0 => none
  | fuel + 1 =>
    match cs with
    | [] => none
    | c :: rest =>
      if c = '"' then
        match parseStringBody (rest.length + 1) rest [] with
        | some (s, r) => some (.str s, r)
        | none => none
      else if c = lb then parseMembers fuel (skipJsonWs rest) [] true
      else if c = '[' then parseElements fuel (skipJsonWs rest) [] true
      else if c = 't' then
        match rest with
        | 'r' :: 'u' :: 'e' :: r => some (.bool true, r)
        | _ => none
      else if c = 'f' then
        match rest with
        | 'a' :: 'l' :: 's' :: 'e' :: r => some (.bool false, r)
        | _ => none
      else if c = 'n' then
        match rest with
        | 'u' :: 'l' :: 'l' :: r => some (.null, r)
        | _ => none
      else if c = '-' ∨ isDigitChar c then
        match parseNumberTok cs with
        | some (tok, r) => some (.num tok, r)
        | none => none
      else none

def parseMembers (fuel : Nat) (cs : Str) (acc : List (Str × JsValue)) (first : Bool) :
    Option (JsValue × Str) :=
  match fuel with
  | 0 => none
  | fuel + 1 =>
    match cs with
    | [] => none
    | c :: rest =>
      if first ∧ c = rb then some (.obj acc.reverse, rest)
      else if c = '"' then
        match parseStringBody (rest.length + 1) rest [] with
        | none => none
        | some (k, r1) =>
          match skipJsonWs r1 with
          | ':' :: r2 =>
            match parseValue fuel (skipJsonWs r2) with
            | none => none
            | some (v, r3) =>
              match skipJsonWs r3 with
              | ',' :: r4 => parseMembers fuel (skipJsonWs r4) ((k, v) :: acc) false
              | c2 :: r4 => if c2 = rb then some (.obj ((k, v) :: acc).reverse, r4) else none
              | [] => none
          | _ => none
      else none

def parseElements (fuel : Nat) (cs : Str) (acc : List JsValue) (first : Bool) :
    Option (JsValue × Str) :=
  match fuel with
  | 0 => none
  | fuel + 1 =>
    match cs with
    | [] => none
    | c :: _ =>
      if first ∧ c = ']' then some (.arr acc.reverse, cs.tail)
      else
        match parseValue fuel cs with
        | none => none
        | some (v, r1) =>
          match skipJsonWs r1 with
          | ',' :: r2 => parseElements fuel (skipJsonWs r2) (v :: acc) false
          | c2 :: r2 => if c2 = ']' then some (.arr (v :: acc).reverse, r2) else none
          | [] => none

end

/-- `JSON.parse`: parse a complete JSON text; `none` models a thrown
`SyntaxError`. -/
def jsonParse (cs : Str) : Option JsValue :=
  match parseValue (cs.length + 8) (skipJsonWs cs) with
  | some (v, rest) => if skipJsonWs rest = [] then some v else none
  | none => none

/-! ## JavaScript exceptions and regex helpers -/

/-- Kinds of exception the embedded code can raise (messages are
host-dependent in JavaScript; only the kind matters here). -/
inductive JsErr where
  | syntaxError
  | typeError
  | invalidCharacterError
deriving DecidableEq

def jsErrMsg : JsErr → Str
  | .syntaxError => "SyntaxError".data
  | .typeError => "TypeError".data
  | .invalidCharacterError => "InvalidCharacterError".data

/-- `try ... catch` over the exception monad. -/
def tryCatchE {α : Type} (x : Except JsErr α) (h : JsErr → Except JsErr α) : Except JsErr α :=
  match x with
  | .error e => h e
  | .ok a => .ok a

/-- `JSON.parse`, throwing a `SyntaxError` on malformed input. -/
def jsonParseE (cs : Str) : Except JsErr JsValue :=
  match jsonParse cs with
  | some v => .ok v
  | none => .error .syntaxError

/-- Property read `v[k]` as JavaScript performs it: reading a property of
`null` or `undefined` throws a `TypeError`. -/
def jsGetPropE (v : JsValue) (k : Str) : Except JsErr JsValue :=
  match v with
  | .null => .error .typeError
  | .undefined => .error .typeError
  | _ => .ok (jsGetProp v k)

/-- `atob(s)`: throws `InvalidCharacterError` exactly when the forgiving
base64 decode rejects `s` (the decoded bytes are never used by this code). -/
def atobE (s : Str) : Except JsErr Unit :=
  if atobOk s then .ok () else .error .invalidCharacterError

def imageKey : Str := "image".data
def dataKey : Str := "data".data
def base64Key : Str := "base64".data
def imageKeyPat : Str := "\"image\"".data
def dataUrlPat : Str := "data:image/".data

def isB64OrEq (c : Char) : Bool := isB64Char c || c == '='

/-- Match `/"image"\s*:\s*"([^"]+)"/` anchored at the start of `cs`,
returning the capture group. -/
def matchImageKeyAt (cs : Str) : Option Str :=
  if imageKeyPat.isPrefixOf cs then
    match (cs.drop imageKeyPat.length).dropWhile jsWsChar with
    | ':' :: r2 =>
      match r2.dropWhile jsWsChar with
      | '"' :: r3 =>
        let cap := r3.takeWhile (fun c => c ≠ '"')
        if cap ≠ [] ∧ (r3.drop cap.length).head? = some '"' then some cap else none
      | _ => none
    | _ => none
  else none

/-- `text.match(/"image"\s*:\s*"([^"]+)"/)`: leftmost match, capture group 1. -/
def findImageKeyMatch : Str → Option Str
  | [] => none
  | c :: rest =>
    match matchImageKeyAt (c :: rest) with
    | some m => some m
    | none => findImageKeyMatch rest

/-- Match `/data:image\/[^;]+;base64,([A-Za-z0-9+\/=]+)/` anchored at the
start of `cs`, returning the capture group. -/
def matchDataUrlAt (cs : Str) : Option Str :=
  if dataUrlPat.isPrefixOf cs then
    let r1 := cs.drop dataUrlPat.length
    let sub := r1.takeWhile (fun c => c ≠ ';')
    if sub = [] then none
    else
      let r2 := r1.drop sub.length
      if ";base64,".data.isPrefixOf r2 then
        let cap := (r2.drop 8).takeWhile isB64OrEq
        if cap = [] then none else some cap
      else none
  else none

/-- `text.match(/data:image\/[^;]+;base64,([A-Za-z0-9+\/=]+)/)`: leftmost
match, capture group 1. -/
def findDataUrlMatch : Str → Option Str
  | [] => none
  | c :: rest =>
    match matchDataUrlAt (c :: rest) with
    | some m => some m
    | none => findDataUrlMatch rest

/-- Worker for `findB64Run`: `acc` is the current base64 run (reversed),
`n` its length. -/
def findB64RunAux : Str → Str → Nat → Option Str
  | [], acc, n => if n ≥ 1000 then some acc.reverse else none
  | c :: rest, acc, n =>
    if isB64Char c then findB64RunAux rest (c :: acc) (n + 1)
    else if n ≥ 1000 then
      some (acc.reverse ++ ((c :: rest).takeWhile (fun c => c == '=')).take 2)
    else findB64RunAux rest [] 0

/-- `text.match(/([A-Za-z0-9+\/]{1000,}={0,2})/)`: the first maximal run of
at least 1000 base64-alphabet characters, plus up to two following `=`. -/
def findB64Run (cs : Str) : Option Str := findB64RunAux cs [] 0

/-- `needle`-substring test, `String.prototype.includes`. -/
def containsSub (needle : Str) : Str → Bool
  | [] => needle.isPrefixOf []
  | c :: rest => needle.isPrefixOf (c :: rest) || containsSub needle rest

/-! ## The live extractor (`src/services/imageResponseHandler.ts`)

`extractImageFromResponse(responseData, responseText)`: Method 1 reads
`responseData.image`, Method 2 re-parses `responseText` and reads `.image`,
Method 3 applies the `"image"` regex; the candidate is then cleaned
(data-URL prefix, whitespace) and checked for length and `atob`-decodability.
The `Except` version places every throwing operation exactly where the
source wraps it in `try`/`catch`. -/

/-- Method 1: direct access to the `image` property of the response object. -/
def method1 (responseData : JsValue) : Option Str :=
  if jsTruthy responseData ∧ jsTypeofObject responseData then
    match jsGetProp responseData imageKey with
    | .str s => if s ≠ [] ∧ s.length > 100 then some s else none
    | _ => none
  else none

/-- Method 2: parse the response text as JSON and read `.image` (the parse
and the property read sit inside the source's `try`). -/
def method2E (t : Str) : Except JsErr (Option Str) :=
  tryCatchE
    (match jsonParseE t with
     | .error e => .error e
     | .ok parsed =>
       match jsGetPropE parsed imageKey with
       | .error e => .error e
       | .ok img =>
         match img with
         | .str s => .ok (if s ≠ [] ∧ s.length > 100 then some s else none)
         | _ => .ok none)
    (fun _ => .ok none)

/-- Method 3: regex extraction `/"image"\s*:\s*"([^"]+)"/` on the raw text. -/
def method3 (t : Str) : Option Str :=
  match findImageKeyMatch t with
  | some m => if m.length > 100 then some m else none
  | none => none

/-- Cleaning step: strip a `data:image/` URL prefix (keeping the segment
after the first comma, when one exists) and remove all whitespace. -/
def cleanCandidate (c0 : Str) : Str :=
  let c1 := if dataUrlPat.isPrefixOf c0 then
      match (splitOnChar ',' c0).get? 1 with
      | some p => p
      | none => c0
    else c0
  removeWs c1

def extractImageFromResponseE (responseData : JsValue) (responseText : Str) :
    Except JsErr (Option Str) :=
  let c1 := method1 responseData
  match (if c1 = none ∧ responseText ≠ [] then method2E responseText else .ok none) with
  | .error e => .error e
  | .ok c2 =>
    let c12 := c1 <|> c2
    let c3 := if c12 = none ∧ responseText ≠ [] then method3 responseText else none
    match c12 <|> c3 with
    | none => .ok none
    | some cand =>
      let cleaned := cleanCandidate cand
      if cleaned.length < 1000 then .ok none
      else
        tryCatchE
          (match atobE (cleaned.take 100) with
           | .error e => .error e
           | .ok _ => .ok (some cleaned))
          (fun _ => .ok none)

/-- The live extractor as a plain function (its exception branch is proved
unreachable below). -/
def extractImageFromResponse (responseData : JsValue) (responseText : Str) : Option Str :=
  match extractImageFromResponseE responseData responseText with
  | .ok r => r
  | .error _ => none

/-- `validateImageData`: non-empty string, length ≥ 1000, base64 character
shape, decodable first 100 characters. -/
def validateImageData (imageBase64 : Str) : Bool :=
  if imageBase64 = [] then false
  else if imageBase64.length < 1000 then false
  else if !b64Shape imageBase64 then false
  else atobOk (imageBase64.take 100)

/-- Steps 1–2 of `processImageResponse`: extraction followed by validation
(`none` models the thrown-and-caught failure paths). -/
def extractValidated (responseData : JsValue) (responseText : Str) : Option Str :=
  match extractImageFromResponse responseData responseText with
  | some p => if validateImageData p then some p else none
  | none => none

/-- The callers (`processItem`, `handleImageGenerationRequest`,
`handleFormSubmit`) parse the body as JSON and fall back to the trimmed
text, then hand both to the extractor. -/
def parseOrTrim (raw : Str) : JsValue :=
  match jsonParse raw with
  | some v => v
  | none => .str (jsTrim raw)

/-- End-to-end response handling of the live service: parse-or-trim, then
extract and validate. -/
def livePipeline (raw : Str) : Option Str :=
  extractValidated (parseOrTrim raw) raw

/-! ## The centralized response handler (`src/unnamed/part_010`)

`extractImageFromResponse(responseData, responseText)` returning
`\x7b success, imageBase64?, error? \x7d`, with six else-if chained methods, a
clean-and-validate block, and a whole-body `try`/`catch` that turns any
thrown error into a structured failure. -/

namespace RH

/-- `ImageGenerationResponse`: `ok` carries `imageBase64` (`success: true`),
`err` carries `error` (`success: false`). -/
inductive ImageGenerationResponse where
  | ok (imageBase64 : Str)
  | err (error : Str)
deriving DecidableEq

def noImageMsg : Str :=
  "No image data found in response. The image generation service may have failed.".data
def invalidFormatMsg : Str := "Invalid base64 format received from server".data
def tooShortMsg : Str := "Received image data is too short to be valid".data
def badB64Msg : Str := "Received data is not valid base64 format".data
def failedPrefix : Str := "Failed to process response: ".data
def emptyRespMsg : Str :=
  "Empty response received from image generation service. Please try again.".data

/-- Methods 1–6 (else-if chained): select the candidate value.  Methods 1–3
can select a non-string JSON value (only truthiness is checked); the
clean-and-validate step then throws on it. -/
def selectCandidate (responseData : JsValue) (responseText : Str) : Option JsValue :=
  if jsTruthy responseData ∧ jsTypeofObject responseData ∧
      jsTruthy (jsGetProp responseData imageKey) then
    some (jsGetProp responseData imageKey)
  else if jsTruthy responseData ∧ jsTruthy (jsGetProp responseData dataKey) ∧
      jsTruthy (jsGetProp (jsGetProp responseData dataKey) imageKey) then
    some (jsGetProp (jsGetProp responseData dataKey) imageKey)
  else if jsTruthy responseData ∧ jsTruthy (jsGetProp responseData base64Key) then
    some (jsGetProp responseData base64Key)
  else if jsTypeofString responseData then
    match responseData with
    | .str s =>
      match jsonParse s with
      | some parsed =>
        if jsTruthy parsed ∧ jsTruthy (jsGetProp parsed imageKey) then
          some (jsGetProp parsed imageKey)
        else if s.length > 1000 then some (.str s)
        else none
      | none => if s.length > 1000 then some (.str s) else none
    | _ => none
  else if responseText ≠ [] ∧ containsSub imageKeyPat responseText then
    match jsonParse responseText with
    | some parsed =>
      if jsTruthy parsed ∧ jsTruthy (jsGetProp parsed imageKey) then
        some (jsGetProp parsed imageKey)
      else none
    | none =>
      match findImageKeyMatch responseText with
      | some m => some (.str m)
      | none => none
  else if responseText ≠ [] ∧ responseText.length > 100 then
    match findDataUrlMatch responseText with
    | some m => some (.str m)
    | none =>
      match findB64Run responseText with
      | some m => some (.str m)
      | none => none
  else none

/-- Clean and validate the selected candidate.  A non-string candidate makes
`startsWith` throw; a `data:image/` prefix without a comma makes
`split(',')[1]` yield `undefined`, so the following `replace` throws.  The
validation order is: character-shape regex, then minimum length, then the
`atob` probe of the first 100 characters. -/
def cleanAndValidate (cand : JsValue) : Except JsErr ImageGenerationResponse :=
  match cand with
  | .str c0 =>
    match (if dataUrlPat.isPrefixOf c0 then
            match (splitOnChar ',' c0).get? 1 with
            | some p => Except.ok p
            | none => Except.error JsErr.typeError
          else Except.ok c0) with
    | .error e => .error e
    | .ok c1 =>
      let c := removeWs c1
      if !b64Shape c then .ok (.err invalidFormatMsg)
      else if c.length < 1000 then .ok (.err tooShortMsg)
      else if !atobOk (c.take 100) then .ok (.err badB64Msg)
      else .ok (.ok c)
  | _ => .error .typeError

/-- Run the clean-and-validate block on a selected candidate; a thrown
error is caught by the whole-body `try`/`catch`, which returns a structured
failure built from the exception's message. -/
def finishCandidate (cand : JsValue) : ImageGenerationResponse :=
  match cleanAndValidate cand with
  | .ok r => r
  | .error e => .err (failedPrefix ++ jsErrMsg e)

/-- The centralized extractor: select a candidate (Methods 1-6), then clean
and validate it under the whole-body `try`/`catch`. -/
def extractImageFromResponse (responseData : JsValue) (responseText : Str) :
    ImageGenerationResponse :=
  match selectCandidate responseData responseText with
  | none => .err noImageMsg
  | some cand => finishCandidate cand

/-- Response handling of `handleImageGenerationRequest`: reject empty
bodies, parse the text as JSON falling back to the trimmed text, then run
the centralized extractor. -/
def pipeline (responseText : Str) : ImageGenerationResponse :=
  if responseText = [] ∨ jsTrim responseText = [] then .err emptyRespMsg
  else extractImageFromResponse (parseOrTrim responseText) responseText

end RH

/-! ## Credits, history objects and `processImageResponse`
(`src/services/imageResponseHandler.ts`, `src/hooks/useImageHistory.ts`) -/

inductive ImageType where
  | blog
  | infographic
deriving DecidableEq

/-- `CREDIT_COSTS = \x7b blog: 5, infographic: 10 \x7d`. -/
def CREDIT_COSTS : ImageType → Int
  | .blog => 5
  | .infographic => 10

def ImageType.toStr : ImageType → Str
  | .blog => "blog".data
  | .infographic => "infographic".data

/-- The authenticated user (`User` of `src/lib/supabase.ts`, the fields this
core reads). -/
structure User where
  id : Str
  credits : Int

/-- `getCreditCost`. -/
def getCreditCost (imageType : ImageType) : Int := CREDIT_COSTS imageType

/-- `checkUserCredits`: unauthenticated users and unconfigured databases are
always allowed; otherwise compare the balance with the per-type cost.
`isSupabaseConfigured` is a module-level constant in the source, passed here
as a parameter. -/
def checkUserCredits (isSupabaseConfigured : Bool) (user : Option User)
    (imageType : ImageType) : Bool :=
  match user with
  | none => true
  | some u =>
    if isSupabaseConfigured = false then true
    else decide (CREDIT_COSTS imageType ≤ u.credits)

/-- `HistoryImage` (`src/types/history.ts`).  The `type` field is a string
(the history hook's runtime validation checks its truthiness). -/
structure HistoryImage where
  id : Str
  type : Str
  base64 : Str
  title : Option Str
  content : Option Str
  timestamp : Int
  style : Option Str
  colour : Option Str
deriving DecidableEq

/-- JavaScript `a || b` for possibly-undefined strings (empty is falsy). -/
def jsOrStr (a b : Option Str) : Option Str :=
  match a with
  | some s => if s = [] then b else some s
  | none => b

/-- JavaScript `a || undefined`. -/
def jsOrUndefined (a : Option Str) : Option Str :=
  match a with
  | some s => if s = [] then none else some s
  | none => none

/-- The prompt fields handed to `createHistoryImage` (title/intro/content/
style/colour as possibly-absent strings). -/
structure FormData where
  title : Option Str
  intro : Option Str
  content : Option Str
  style : Option Str
  colour : Option Str

/-- `createHistoryImage`.  `newId` stands for the supplied-or-generated
identifier (`id || img-${Date.now()}-…`) and `now` for `Date.now()`. -/
def createHistoryImage (imageBase64 : Str) (imageType : ImageType)
    (formData : FormData) (newId : Str) (now : Int) : HistoryImage :=
  { id := newId
    type := imageType.toStr
    base64 := imageBase64
    title := match imageType with
      | .blog => formData.title
      | .infographic => jsOrStr formData.title (some "Infographic".data)
    content := match imageType with
      | .blog => jsOrStr formData.intro formData.content
      | .infographic => formData.content
    timestamp := now
    style := jsOrUndefined formData.style
    colour := jsOrUndefined formData.colour }

/-- Downstream operations attempted by step 4 of `processImageResponse`. -/
inductive SideOp where
  | deductCredits
  | refreshUser
  | saveToDatabase
deriving DecidableEq

/-- Observable outcome of `processImageResponse`: the returned
`\x7b success, image?, error? \x7d`, the image handed to `onImageGenerated`,
the downstream operations attempted, and whether the local catch logged a
downstream failure. -/
structure ProcessResult where
  success : Bool
  image : Option HistoryImage
  error : Option Str
  handedToHistory : Option HistoryImage
  sideOps : List SideOp
  sideErrorLogged : Bool
deriving DecidableEq

def noImageN8nMsg : Str :=
  "No image data found in n8n webhook response. The image generation may have failed.".data
def invalidN8nMsg : Str :=
  "Invalid image data received from n8n webhook. Please try again.".data

/-- `processImageResponse`: extract, validate, build the history image,
attempt credit deduction / user refresh / database save for authenticated
users (failures there are caught and logged, never affecting the result),
then hand the image to `onImageGenerated`.  `deductFails` / `saveFails` are
the oracle outcomes of the two fallible downstream collaborators. -/
def processImageResponse (responseData : JsValue) (responseText : Str)
    (imageType : ImageType) (formData : FormData)
    (user : Option User) (isSupabaseConfigured : Bool)
    (deductFails saveFails : Bool)
    (hasOnImageGenerated hasOnRefreshUser : Bool)
    (newId : Str) (now : Int) : ProcessResult :=
  match extractImageFromResponse responseData responseText with
  | none =>
    { success := false, image := none, error := some noImageN8nMsg,
      handedToHistory := none, sideOps := [], sideErrorLogged := false }
  | some imageBase64 =>
    if validateImageData imageBase64 = false then
      { success := false, image := none, error := some invalidN8nMsg,
        handedToHistory := none, sideOps := [], sideErrorLogged := false }
    else
      let historyImage := createHistoryImage imageBase64 imageType formData newId now
      let doSide := user.isSome ∧ isSupabaseConfigured
      let sideOps : List SideOp :=
        if doSide then
          if deductFails then [.deductCredits]
          else [.deductCredits] ++ (if hasOnRefreshUser then [.refreshUser] else [])
            ++ [.saveToDatabase]
        else []
      { success := true, image := some historyImage, error := none,
        handedToHistory := if hasOnImageGenerated then some historyImage else none,
        sideOps := sideOps,
        sideErrorLogged := decide doSide && (deductFails || saveFails) }

/-! ## The local history list (`src/hooks/useImageHistory.ts`) -/

def MAX_HISTORY_ITEMS : Nat := 50

/-- The runtime validation in `addToHistory`: id, base64, type and timestamp
must all be truthy. -/
def validHistoryImage (image : HistoryImage) : Bool :=
  image.id ≠ [] && image.base64 ≠ [] && image.type ≠ [] && image.timestamp ≠ 0

/-- `addToHistory`'s state update: reject invalid images, leave the list
unchanged when the id already exists, otherwise prepend and keep the most
recent `MAX_HISTORY_ITEMS` entries. -/
def addToHistory (image : HistoryImage) (prev : List HistoryImage) : List HistoryImage :=
  if !validHistoryImage image then prev
  else if prev.any (fun item => item.id == image.id) then prev
  else ((image :: prev).take MAX_HISTORY_ITEMS)

/-! ## The bulk batch loop (`src/components/BulkProcessingModal.tsx`)

`startBulkProcessing` validates the items and the credit balance, then runs
`processItem` sequentially over the item list.  The per-item HTTP request,
response handling and `processImageResponse` call are abstracted as a
`submit` oracle whose settlement is either a successful `Found` extraction
(carrying the image) or a failure message; `processItem` maps that
settlement onto the item's status fields.  React's `setBulkItems(prev => …)`
updates are modelled as functions on the item list; the loop iterates over
the `bulkItems` snapshot captured when processing started, exactly as the
source closure does. -/

inductive BulkStatus where
  | pending
  | processing
  | completed
  | failed
deriving DecidableEq

structure BulkItem where
  id : Str
  title : Option Str
  content : Str
  style : Option Str
  colour : Option Str
  status : BulkStatus
  imageData : Option Str
  error : Option Str
deriving DecidableEq

/-- Settlement of one `processItem` submission: either the pipeline resolved
with a `Found` extraction (success) or it failed (HTTP error, timeout,
empty body, `NotFound`/`Invalid` extraction — all mapped to an error
message by the source's catch block). -/
inductive SubmitOutcome where
  | found (imageBase64 : Str)
  | failure (errorMessage : Str)
deriving DecidableEq

def SubmitOutcome.isFound : SubmitOutcome → Bool
  | .found _ => true
  | .failure _ => false

/-- `setBulkItems(prev => prev.map(i => i.id === item.id ? \x7b ...i, status:
'processing' \x7d : i))`. -/
def markProcessing (st : List BulkItem) (theId : Str) : List BulkItem :=
  st.map (fun i => if i.id = theId then { i with status := .processing } else i)

/-- The success / failure status update at the end of `processItem`. -/
def finalizeItem (st : List BulkItem) (theId : Str) (oc : SubmitOutcome) : List BulkItem :=
  st.map (fun i =>
    if i.id = theId then
      match oc with
      | .found img => { i with status := .completed, imageData := some img }
      | .failure m => { i with status := .failed, error := some m }
    else i)

/-- `processItem`: mark the item processing, await the submission, record
the outcome; returns the updated list and whether the item succeeded. -/
def processItem (submit : BulkItem → SubmitOutcome) (st : List BulkItem)
    (item : BulkItem) : List BulkItem × Bool :=
  let st1 := markProcessing st item.id
  let oc := submit item
  (finalizeItem st1 item.id oc, oc.isFound)

/-- The `for` loop of `startBulkProcessing` over the snapshot list (the
inter-item 1000 ms delay has no effect on the resulting state). -/
def runLoop (submit : BulkItem → SubmitOutcome) :
    List BulkItem → List BulkItem → Nat → List BulkItem × Nat
  | [], st, cnt => (st, cnt)
  | it :: rest, st, cnt =>
    let p := processItem submit st it
    runLoop submit rest p.1 (cnt + (if p.2 then 1 else 0))

/-- The pre-loop validation: blog items need a non-blank title and content,
infographic items a non-blank content. -/
def validBulkItem (imageType : ImageType) (item : BulkItem) : Bool :=
  match imageType with
  | .blog =>
    (match item.title with
     | some s => jsTrim s ≠ []
     | none => false) && jsTrim item.content ≠ []
  | .infographic => jsTrim item.content ≠ []

/-- The `succeeded/total` counts reported through `onBulkCompleted`. -/
structure BatchSummary where
  succeeded : Nat
  total : Nat
deriving DecidableEq

/-- `startBulkProcessing`: `none` models the early returns (empty list,
validation alert, insufficient credits) where no processing happens;
otherwise the final item list and the reported summary. -/
def startBulkProcessing (user : Option User) (imageType : ImageType)
    (bulkItems : List BulkItem) (submit : BulkItem → SubmitOutcome) :
    Option (List BulkItem × BatchSummary) :=
  if bulkItems.length = 0 then none
  else if (bulkItems.filter (fun it => !validBulkItem imageType it)).length ≠ 0 then none
  else if (match user with
           | some u => decide (u.credits < (bulkItems.length : Int) * CREDIT_COSTS imageType)
           | none => false) then none
  else
    let r := runLoop submit bulkItems bulkItems 0
    some (r.1, { succeeded := r.2, total := bulkItems.length })

/-- The terminal state `processItem` leaves an item in, given its
settlement (used to state the batch-loop theorem). -/
def applyOutcome (submit : BulkItem → SubmitOutcome) (it : BulkItem) : BulkItem :=
  match submit it with
  | .found img => { it with status := .completed, imageData := some img }
  | .failure m => { it with status := .failed, error := some m }

/-! ## Helper lemmas on character classes, shapes and scanning -/

theorem isB64Char_not_jsWs (c : Char) (h : isB64Char c = true) : jsWsChar c = false := by
  unfold isB64Char at h
  unfold jsWsChar
  simp only [Bool.or_eq_true, Bool.and_eq_true, decide_eq_true_eq, beq_iff_eq] at h
  simp only [Bool.or_eq_false_iff, Bool.and_eq_false_iff, decide_eq_false_iff_not, not_le,
    beq_eq_false_iff_ne, ne_eq]
  omega

theorem isB64Char_not_asciiWs (c : Char) (h : isB64Char c = true) : asciiWsChar c = false := by
  unfold isB64Char at h
  unfold asciiWsChar
  simp only [Bool.or_eq_true, Bool.and_eq_true, decide_eq_true_eq, beq_iff_eq] at h
  simp only [Bool.or_eq_false_iff, beq_eq_false_iff_ne, ne_eq]
  omega

theorem isB64Char_ne_eq (c : Char) (h : isB64Char c = true) : c ≠ '=' := by
  intro he
  subst he
  exact absurd h (by decide)

theorem isB64Char_ne_comma (c : Char) (h : isB64Char c = true) : c ≠ ',' := by
  intro he
  subst he
  exact absurd h (by decide)

theorem takeWhile_eq_nil_of_none {p : Char → Bool} {l : Str}
    (h : ∀ c ∈ l, p c = false) : l.takeWhile p = [] := by
  cases l with
  | nil => rfl
  | cons c rest =>
    rw [List.takeWhile_cons, h c (List.mem_cons_self c rest)]
    simp

theorem dropWhile_eq_self_of_none {p : Char → Bool} {l : Str}
    (h : ∀ c ∈ l, p c = false) : l.dropWhile p = l := by
  cases l with
  | nil => rfl
  | cons c rest =>
    rw [List.dropWhile_cons, h c (List.mem_cons_self c rest)]
    simp

/-- Every character of a `b64Shape` string is in the alphabet or is `=`. -/
theorem b64Shape_mem {s : Str} (h : b64Shape s = true) :
    ∀ c ∈ s, isB64Char c = true ∨ c = '=' := by
  unfold b64Shape at h
  simp only [Bool.and_eq_true, decide_eq_true_eq, List.all_eq_true] at h
  intro c hc
  have hc' : c ∈ s.reverse.takeWhile (fun c => c == '=') ++
      s.reverse.dropWhile (fun c => c == '=') := by
    rw [List.takeWhile_append_dropWhile]
    exact List.mem_reverse.mpr hc
  rcases List.mem_append.mp hc' with h1 | h2
  · right
    have := List.mem_takeWhile_imp h1
    exact eq_of_beq this
  · left
    exact h.2 c h2

theorem b64Shape_no_ws {s : Str} (h : b64Shape s = true) :
    ∀ c ∈ s, jsWsChar c = false := by
  intro c hc
  rcases b64Shape_mem h c hc with h1 | h1
  · exact isB64Char_not_jsWs c h1
  · subst h1; decide

theorem b64Shape_ne_comma {s : Str} (h : b64Shape s = true) :
    ∀ c ∈ s, c ≠ ',' := by
  intro c hc
  rcases b64Shape_mem h c hc with h1 | h1
  · exact isB64Char_ne_comma c h1
  · subst h1; decide

theorem removeWs_eq_self_of_shape {s : Str} (h : b64Shape s = true) :
    removeWs s = s := by
  unfold removeWs
  rw [List.filter_eq_self]
  intro c hc
  rw [b64Shape_no_ws h c hc]
  rfl

theorem jsTrim_eq_self_of_no_ws {s : Str} (h : ∀ c ∈ s, jsWsChar c = false) :
    jsTrim s = s := by
  unfold jsTrim
  rw [dropWhile_eq_self_of_none h,
      dropWhile_eq_self_of_none (fun c hc => h c (List.mem_reverse.mp hc)),
      List.reverse_reverse]

/-- A string of `b64Shape` with at least 102 characters has a pure-alphabet
first 100 characters (any `=` padding sits in the last two positions). -/
theorem take100_all_b64 {s : Str} (h : b64Shape s = true) (hl : 102 ≤ s.length) :
    ∀ c ∈ s.take 100, isB64Char c = true := by
  have hsplit : s = (s.reverse.dropWhile (fun c => c == '=')).reverse ++
      (s.reverse.takeWhile (fun c => c == '=')).reverse := by
    rw [← List.reverse_append, List.takeWhile_append_dropWhile, List.reverse_reverse]
  unfold b64Shape at h
  simp only [Bool.and_eq_true, decide_eq_true_eq, List.all_eq_true] at h
  have hcore : 100 ≤ (s.reverse.dropWhile (fun c => c == '=')).reverse.length := by
    have h1 : s.length = (s.reverse.dropWhile (fun c => c == '=')).reverse.length +
        (s.reverse.takeWhile (fun c => c == '=')).reverse.length := by
      conv_lhs => rw [hsplit]
      rw [List.length_append]
    have h2 := h.1
    simp only [List.length_reverse] at h1 ⊢
    omega
  intro c hc
  rw [hsplit, List.take_append_of_le_length hcore] at hc
  have hmem : c ∈ (s.reverse.dropWhile (fun c => c == '=')).reverse :=
    List.take_subset 100 _ hc
  exact h.2 c (List.mem_reverse.mp hmem)

theorem dropB64Pads_eq_self_of_all {t : Str} (h : ∀ c ∈ t, isB64Char c = true) :
    dropB64Pads t = t := by
  have hnil : t.reverse.takeWhile (fun c => c == '=') = [] := by
    apply takeWhile_eq_nil_of_none
    intro c hc
    have hb := isB64Char_ne_eq c (h c (List.mem_reverse.mp hc))
    simp [hb]
  simp [dropB64Pads, hnil]

theorem atobOk_of_all_b64 {t : Str} (h : ∀ c ∈ t, isB64Char c = true)
    (hl : t.length % 4 ≠ 1) : atobOk t = true := by
  have hfil : t.filter (fun c => !asciiWsChar c) = t := by
    rw [List.filter_eq_self]
    intro c hc
    rw [isB64Char_not_asciiWs c (h c hc)]
    rfl
  simp only [atobOk, hfil]
  by_cases h4 : (t.length % 4 == 0) = true
  · rw [if_pos h4, dropB64Pads_eq_self_of_all h]
    simp only [Bool.and_eq_true, decide_eq_true_eq, List.all_eq_true]
    exact ⟨hl, h⟩
  · rw [if_neg h4]
    simp only [Bool.and_eq_true, decide_eq_true_eq, List.all_eq_true]
    exact ⟨hl, h⟩

/-- The `atob` probe of the first 100 characters always succeeds on a
`b64Shape` string of length ≥ 102. -/
theorem atobOk_take100_of_shape {s : Str} (h : b64Shape s = true)
    (hl : 102 ≤ s.length) : atobOk (s.take 100) = true := by
  apply atobOk_of_all_b64 (take100_all_b64 h hl)
  rw [List.length_take]
  omega

theorem not_dataUrl_prefix_of_shape {s : Str} (h : b64Shape s = true) :
    dataUrlPat.isPrefixOf s = false := by
  by_contra hcon
  rw [Bool.not_eq_false, List.isPrefixOf_iff_prefix] at hcon
  have hcolon : ':' ∈ s := hcon.subset (by decide)
  rcases b64Shape_mem h ':' hcolon with h1 | h1
  · exact absurd h1 (by decide)
  · exact absurd h1 (by decide)

theorem splitOnChar_cons (sep c : Char) (rest : Str) :
    splitOnChar sep (c :: rest) =
      if c = sep then [] :: splitOnChar sep rest
      else match splitOnChar sep rest with
        | [] => [[c]]
        | h :: t => (c :: h) :: t := rfl

theorem splitOnChar_eq_single {sep : Char} {l : Str} (h : ∀ c ∈ l, c ≠ sep) :
    splitOnChar sep l = [l] := by
  induction l with
  | nil => rfl
  | cons c rest ih =>
    rw [splitOnChar_cons, if_neg (h c (List.mem_cons_self c rest)),
        ih (fun x hx => h x (List.mem_cons_of_mem c hx))]

theorem splitOnChar_append {sep : Char} {xs ys : Str} (h : ∀ c ∈ xs, c ≠ sep) :
    splitOnChar sep (xs ++ sep :: ys) = xs :: splitOnChar sep ys := by
  induction xs with
  | nil =>
    show splitOnChar sep (sep :: ys) = [] :: splitOnChar sep ys
    rw [splitOnChar_cons, if_pos rfl]
  | cons c rest ih =>
    show splitOnChar sep (c :: (rest ++ sep :: ys)) = (c :: rest) :: splitOnChar sep ys
    rw [splitOnChar_cons, if_neg (h c (List.mem_cons_self c rest)),
        ih (fun x hx => h x (List.mem_cons_of_mem c hx))]

theorem b64Shape_of_all {s : Str} (h : ∀ c ∈ s, isB64Char c = true) :
    b64Shape s = true := by
  have h' : ∀ c ∈ s.reverse, (fun c => c == '=') c = false := by
    intro c hc
    have hb := isB64Char_ne_eq c (h c (List.mem_reverse.mp hc))
    simp [hb]
  simp only [b64Shape]
  rw [takeWhile_eq_nil_of_none h', dropWhile_eq_self_of_none h']
  simp only [List.length_nil, Bool.and_eq_true, decide_eq_true_eq, List.all_eq_true]
  exact ⟨by omega, fun c hc => h c (List.mem_reverse.mp hc)⟩

/-- A run of `n` copies of the base64-alphabet character `A` (witness data). -/
def aRun (n : Nat) : Str := List.replicate n 'A'

theorem aRun_all_b64 (n : Nat) : ∀ c ∈ aRun n, isB64Char c = true := by
  intro c hc
  rw [List.eq_of_mem_replicate hc]
  decide

theorem aRun_b64Shape (n : Nat) : b64Shape (aRun n) = true :=
  b64Shape_of_all (aRun_all_b64 n)

theorem aRun_length (n : Nat) : (aRun n).length = n := List.length_replicate n 'A'

/-! ## Symbolic evaluation lemmas for the centralized extractor -/

theorem RH.selectCandidate_str (s t : Str) :
    RH.selectCandidate (.str s) t =
      (match jsonParse s with
       | some parsed =>
         if jsTruthy parsed ∧ jsTruthy (jsGetProp parsed imageKey) then
           some (jsGetProp parsed imageKey)
         else if s.length > 1000 then some (.str s) else none
       | none => if s.length > 1000 then some (.str s) else none) := by
  unfold RH.selectCandidate
  rw [if_neg (fun h => by simpa [jsTypeofObject] using h.2.1),
      if_neg (fun h => by simpa [jsGetProp, jsTruthy] using h.2.1),
      if_neg (fun h => by simpa [jsGetProp, jsTruthy] using h.2),
      if_pos (show jsTypeofString (JsValue.str s) = true from rfl)]

theorem RH.cleanAndValidate_valid {s : Str} (hsh : b64Shape s = true)
    (hlen : 1000 ≤ s.length) :
    RH.cleanAndValidate (.str s) = .ok (.ok s) := by
  simp only [RH.cleanAndValidate]
  have hpre : dataUrlPat.isPrefixOf s = false := not_dataUrl_prefix_of_shape hsh
  rw [if_neg (by simp [hpre])]
  simp only [removeWs_eq_self_of_shape hsh]
  rw [if_neg (by simp [hsh]), if_neg (by omega),
      if_neg (by simp [atobOk_take100_of_shape hsh (by omega)])]

theorem RH.finishCandidate_valid {s : Str} (hsh : b64Shape s = true)
    (hlen : 1000 ≤ s.length) : RH.finishCandidate (.str s) = .ok s := by
  unfold RH.finishCandidate
  rw [RH.cleanAndValidate_valid hsh hlen]

theorem RH.selectCandidate_obj_image (d : JsValue) (t : Str)
    (htr : jsTruthy d = true) (hobj : jsTypeofObject d = true)
    (himg : jsTruthy (jsGetProp d imageKey) = true) :
    RH.selectCandidate d t = some (jsGetProp d imageKey) := by
  unfold RH.selectCandidate
  rw [if_pos ⟨htr, hobj, himg⟩]

theorem RH.selectCandidate_obj_dataImage (d : JsValue) (t : Str)
    (htr : jsTruthy d = true)
    (himg : jsTruthy (jsGetProp d imageKey) = false)
    (hdata : jsTruthy (jsGetProp d dataKey) = true)
    (hdi : jsTruthy (jsGetProp (jsGetProp d dataKey) imageKey) = true) :
    RH.selectCandidate d t = some (jsGetProp (jsGetProp d dataKey) imageKey) := by
  unfold RH.selectCandidate
  rw [if_neg (fun h => by rw [himg] at h; exact absurd h.2.2 (by decide)),
      if_pos ⟨htr, hdata, hdi⟩]

theorem RH.selectCandidate_obj_base64 (d : JsValue) (t : Str)
    (htr : jsTruthy d = true)
    (himg : jsTruthy (jsGetProp d imageKey) = false)
    (hdi : jsTruthy (jsGetProp (jsGetProp d dataKey) imageKey) = false)
    (hb : jsTruthy (jsGetProp d base64Key) = true) :
    RH.selectCandidate d t = some (jsGetProp d base64Key) := by
  unfold RH.selectCandidate
  rw [if_neg (fun h => by rw [himg] at h; exact absurd h.2.2 (by decide)),
      if_neg (fun h => by rw [hdi] at h; exact absurd h.2.2 (by decide)),
      if_pos ⟨htr, hb⟩]

theorem parseValue_d (fuel : Nat) (x : Str) : parseValue fuel ('d' :: x) = none := by
  cases fuel with
  | zero => rfl
  | succ f =>
    simp only [parseValue, lb]
    rw [if_neg (by decide), if_neg (by decide), if_neg (by decide), if_neg (by decide),
        if_neg (by decide), if_neg (by decide), if_neg (by decide)]

theorem jsonParse_d (x : Str) : jsonParse ('d' :: x) = none := by
  unfold jsonParse
  have hskip : skipJsonWs ('d' :: x) = 'd' :: x := by
    unfold skipJsonWs
    rw [List.dropWhile_cons, if_neg (by decide)]
  rw [hskip, parseValue_d]

theorem findImageKeyMatch_none {cs : Str} (h : ∀ c ∈ cs, c ≠ '"') :
    findImageKeyMatch cs = none := by
  induction cs with
  | nil => rfl
  | cons c rest ih =>
    have hm : matchImageKeyAt (c :: rest) = none := by
      unfold matchImageKeyAt
      rw [if_neg]
      intro hpre
      have : '"' = c := by
        have hp2 : imageKeyPat.isPrefixOf (c :: rest) = true := hpre
        rw [show imageKeyPat = '"' :: "image\"".data from rfl,
            List.isPrefixOf_iff_prefix, List.cons_prefix_cons] at hp2
        exact hp2.1
      exact h c (List.mem_cons_self c rest) this.symm
    show (match matchImageKeyAt (c :: rest) with
      | some m => some m
      | none => findImageKeyMatch rest) = none
    rw [hm]
    exact ih (fun x hx => h x (List.mem_cons_of_mem c hx))

theorem method1_str (s : Str) : method1 (.str s) = none := by
  unfold method1
  rw [if_neg (fun hcon => by simpa [jsTypeofObject] using hcon.2)]

theorem method2E_of_parse_none {t : Str} (hp : jsonParse t = none) :
    method2E t = .ok none := by
  unfold method2E jsonParseE tryCatchE
  rw [hp]

/-- The live extractor finds nothing in a bare non-JSON string without
quote characters (its three methods probe only the `image` key). -/
theorem liveExtract_str_none {s : Str} (hne : s ≠ [])
    (hp : jsonParse s = none) (hq : ∀ c ∈ s, c ≠ '"') :
    extractImageFromResponse (.str s) s = none := by
  have hE : extractImageFromResponseE (.str s) s = .ok none := by
    simp only [extractImageFromResponseE]
    rw [method1_str, if_pos ⟨rfl, hne⟩, method2E_of_parse_none hp]
    simp only []
    have hm3 : method3 s = none := by
      unfold method3
      rw [findImageKeyMatch_none hq]
    rw [if_pos ⟨rfl, hne⟩, hm3]
    rfl
  unfold extractImageFromResponse
  rw [hE]

theorem validateImageData_of_valid {s : Str} (hsh : b64Shape s = true)
    (hlen : 1000 ≤ s.length) : validateImageData s = true := by
  unfold validateImageData
  rw [if_neg (by intro h; rw [h] at hlen; simp at hlen),
      if_neg (by omega), if_neg (by simp [hsh])]
  exact atobOk_take100_of_shape hsh (by omega)

theorem cleanCandidate_of_shape {s : Str} (hsh : b64Shape s = true) :
    cleanCandidate s = s := by
  unfold cleanCandidate
  rw [if_neg (by simp [not_dataUrl_prefix_of_shape hsh])]
  exact removeWs_eq_self_of_shape hsh

/-- The live extractor on an object carrying a valid base64 `image`
property: Method 1 selects it, cleaning is a no-op and validation passes. -/
theorem liveExtract_obj_image (d : JsValue) (s : Str) (t : Str)
    (htr : jsTruthy d = true) (hobj : jsTypeofObject d = true)
    (hget : jsGetProp d imageKey = .str s)
    (hsh : b64Shape s = true) (hlen : 1000 ≤ s.length) :
    extractImageFromResponse d t = some s ∧ extractValidated d t = some s := by
  have hm1 : method1 d = some s := by
    unfold method1
    rw [if_pos ⟨htr, hobj⟩, hget]
    show (if s ≠ [] ∧ s.length > 100 then some s else none) = some s
    rw [if_pos ⟨List.ne_nil_of_length_pos (by omega), by omega⟩]
  have hat : atobE (s.take 100) = .ok () := by
    unfold atobE
    rw [if_pos (atobOk_take100_of_shape hsh (by omega))]
  have hE : extractImageFromResponseE d t = .ok (some s) := by
    simp only [extractImageFromResponseE]
    rw [hm1, if_neg (fun h => Option.noConfusion h.1)]
    simp only []
    rw [if_neg (fun h => Option.noConfusion h.1)]
    show (if (cleanCandidate s).length < 1000 then Except.ok none
          else tryCatchE (match atobE ((cleanCandidate s).take 100) with
            | .error e => .error e
            | .ok _ => .ok (some (cleanCandidate s))) (fun _ => .ok none)) =
      .ok (some s)
    rw [cleanCandidate_of_shape hsh, if_neg (by omega), hat]
    rfl
  have hx : extractImageFromResponse d t = some s := by
    unfold extractImageFromResponse
    rw [hE]
  refine ⟨hx, ?_⟩
  unfold extractValidated
  rw [hx]
  show (if validateImageData s = true then some s else none) = some s
  rw [if_pos (validateImageData_of_valid hsh hlen)]

/-- Bare base64-alphabet non-JSON responses of length ≤ 1000: the
centralized pipeline finds no candidate. -/
theorem RH.pipeline_bare_notfound {s : Str} (hne : s ≠ [])
    (hall : ∀ c ∈ s, isB64Char c = true) (hp : jsonParse s = none)
    (hlen : s.length ≤ 1000) : RH.pipeline s = .err RH.noImageMsg := by
  have htrim : jsTrim s = s :=
    jsTrim_eq_self_of_no_ws (fun c hc => isB64Char_not_jsWs c (hall c hc))
  unfold RH.pipeline
  rw [if_neg (fun h => h.elim hne (fun h2 => hne (by rwa [htrim] at h2)))]
  have hpt : parseOrTrim s = .str s := by
    unfold parseOrTrim
    rw [hp, htrim]
  rw [hpt]
  unfold RH.extractImageFromResponse
  rw [RH.selectCandidate_str, hp, if_neg (by omega)]

/-- Bare base64 non-JSON responses of length ≥ 1001: the centralized
pipeline returns the whole string. -/
theorem RH.pipeline_bare_found {s : Str} (hsh : b64Shape s = true)
    (hp : jsonParse s = none) (hlen : 1001 ≤ s.length) :
    RH.pipeline s = .ok s := by
  have hne : s ≠ [] := by
    intro h
    rw [h] at hlen
    simp at hlen
  have htrim : jsTrim s = s := jsTrim_eq_self_of_no_ws (b64Shape_no_ws hsh)
  unfold RH.pipeline
  rw [if_neg (fun h => h.elim hne (fun h2 => hne (by rwa [htrim] at h2)))]
  have hpt : parseOrTrim s = .str s := by
    unfold parseOrTrim
    rw [hp, htrim]
  rw [hpt]
  unfold RH.extractImageFromResponse
  rw [RH.selectCandidate_str, hp, if_pos (by omega)]
  exact RH.finishCandidate_valid hsh (by omega)

/-- Bare base64-alphabet non-JSON responses of any length: the live
pipeline finds nothing (it probes only the `image` key). -/
theorem livePipeline_bare_none {s : Str} (hne : s ≠ [])
    (hall : ∀ c ∈ s, isB64Char c = true) (hp : jsonParse s = none) :
    livePipeline s = none := by
  have htrim : jsTrim s = s :=
    jsTrim_eq_self_of_no_ws (fun c hc => isB64Char_not_jsWs c (hall c hc))
  have hq : ∀ c ∈ s, c ≠ '"' := fun c hc he => by
    subst he
    exact absurd (hall _ hc) (by decide)
  unfold livePipeline
  have hpt : parseOrTrim s = .str s := by
    unfold parseOrTrim
    rw [hp, htrim]
  rw [hpt]
  unfold extractValidated
  rw [liveExtract_str_none hne hp hq]

/-! ## C9 — credit-sufficiency check -/

/-- C9: `checkUserCredits` returns `true` whenever the user is `null` or the
database is not configured, regardless of the cost; only with an
authenticated user and a configured database does it compare `user.credits`
against the per-type cost, which is 5 for blog and 10 for infographic. -/
theorem checkUserCredits_spec :
    (∀ cfg t, checkUserCredits cfg none t = true) ∧
    (∀ u t, checkUserCredits false (some u) t = true) ∧
    (∀ u t, checkUserCredits true (some u) t = decide (CREDIT_COSTS t ≤ u.credits)) ∧
    CREDIT_COSTS .blog = 5 ∧ CREDIT_COSTS .infographic = 10 :=
  ⟨fun _ _ => rfl, fun _ _ => rfl, fun _ _ => rfl, rfl, rfl⟩

/-! ## C10 — local history invariants -/

theorem addToHistory_eq_of_invalid {image : HistoryImage} (prev : List HistoryImage)
    (hv : validHistoryImage image = false) : addToHistory image prev = prev := by
  unfold addToHistory
  rw [hv]
  rfl

theorem addToHistory_eq_of_dup {image : HistoryImage} {prev : List HistoryImage}
    (hv : validHistoryImage image = true)
    (hex : prev.any (fun item => item.id == image.id) = true) :
    addToHistory image prev = prev := by
  unfold addToHistory
  rw [hv, hex]
  rfl

theorem addToHistory_eq_of_add {image : HistoryImage} {prev : List HistoryImage}
    (hv : validHistoryImage image = true)
    (hex : prev.any (fun item => item.id == image.id) = false) :
    addToHistory image prev = (image :: prev).take MAX_HISTORY_ITEMS := by
  unfold addToHistory
  rw [hv, hex]
  rfl

/-- C10: across every `addToHistory` call, the history never exceeds 50
entries (a full list evicts the oldest, keeping the new image first),
identifiers stay pairwise distinct (an existing id leaves the list
unchanged), and an image missing id, base64, type or timestamp is rejected
without modifying the list. -/
theorem addToHistory_invariants (image : HistoryImage) (prev : List HistoryImage) :
    (prev.length ≤ MAX_HISTORY_ITEMS →
      (addToHistory image prev).length ≤ MAX_HISTORY_ITEMS) ∧
    ((prev.map HistoryImage.id).Nodup →
      ((addToHistory image prev).map HistoryImage.id).Nodup) ∧
    (validHistoryImage image = false → addToHistory image prev = prev) ∧
    (prev.any (fun item => item.id == image.id) = true → addToHistory image prev = prev) ∧
    (validHistoryImage image = true →
      prev.any (fun item => item.id == image.id) = false →
      prev.length = MAX_HISTORY_ITEMS →
      addToHistory image prev = image :: prev.take (MAX_HISTORY_ITEMS - 1)) := by
  cases hv : validHistoryImage image with
  | false =>
    have he := addToHistory_eq_of_invalid prev hv
    refine ⟨fun h => by rw [he]; exact h, fun h => by rw [he]; exact h,
      fun _ => he, fun _ => he, fun hvt _ _ => ?_⟩
    exact absurd hvt (by decide)
  | true =>
    cases hex : prev.any (fun item => item.id == image.id) with
    | true =>
      have he := addToHistory_eq_of_dup hv hex
      refine ⟨fun h => by rw [he]; exact h, fun h => by rw [he]; exact h,
        fun hvf => ?_, fun _ => he, fun _ hexf _ => ?_⟩
      · exact absurd hvf (by decide)
      · exact absurd hexf (by decide)
    | false =>
      have he := addToHistory_eq_of_add hv hex
      refine ⟨fun _ => ?_, fun hnd => ?_, fun hvf => ?_, fun hext => ?_, fun _ _ _ => ?_⟩
      · rw [he, List.length_take]
        exact min_le_left _ _
      · rw [he, List.map_take]
        have h1 : ((image :: prev).map HistoryImage.id).Nodup := by
          rw [List.map_cons]
          refine List.nodup_cons.mpr ⟨?_, hnd⟩
          intro hm
          rcases List.mem_map.mp hm with ⟨a, ha, hid⟩
          have hany : prev.any (fun item => item.id == image.id) = true :=
            List.any_eq_true.mpr ⟨a, ha, by simp [hid]⟩
          rw [hex] at hany
          exact absurd hany (by decide)
        exact List.Nodup.sublist (List.take_sublist _ _) h1
      · exact absurd hvf (by decide)
      · exact absurd hext (by decide)
      · rw [he]
        show List.take (49 + 1) (image :: prev) = image :: List.take 49 prev
        rw [List.take_succ_cons]

/-- Concrete history image used by the C10 witness. -/
def wImg : HistoryImage :=
  { id := ['z'], type := "blog".data, base64 := ['B'], title := none,
    content := none, timestamp := 1, style := none, colour := none }

/-- A 50-entry history with pairwise-distinct ids (C10 witness data). -/
def wHist50 : List HistoryImage :=
  (List.range 50).map (fun i =>
    { id := [Char.ofNat (65 + i)], type := "blog".data, base64 := ['B'],
      title := none, content := none, timestamp := 1, style := none, colour := none })

theorem addToHistory_invariants_witness :
    validHistoryImage wImg = true ∧
    wHist50.any (fun item => item.id == wImg.id) = false ∧
    wHist50.length = MAX_HISTORY_ITEMS ∧
    addToHistory wImg wHist50 = wImg :: wHist50.take (MAX_HISTORY_ITEMS - 1) ∧
    (addToHistory wImg wHist50).length ≤ MAX_HISTORY_ITEMS :=
  ⟨by decide, by decide, by decide,
    (addToHistory_invariants wImg wHist50).2.2.2.2 (by decide) (by decide) (by decide),
    (addToHistory_invariants wImg wHist50).1 (by decide)⟩

/-! ## C8 — downstream side-effect failures never affect a successful generation -/

/-- C8: whenever extraction + validation succeed, `processImageResponse`
returns success with the extracted image and hands it to the history
callback, for every outcome of the credit-deduction and database-save
collaborators — their failures are caught locally and change neither the
success flag, nor the returned image, nor the history hand-off. -/
theorem processImageResponse_success_independent
    (d : JsValue) (t : Str) (ty : ImageType) (fd : FormData)
    (user : Option User) (cfg : Bool) (df sf cb rf : Bool)
    (newId : Str) (now : Int) (p : Str)
    (hx : extractValidated d t = some p) :
    (processImageResponse d t ty fd user cfg df sf cb rf newId now).success = true ∧
    (processImageResponse d t ty fd user cfg df sf cb rf newId now).image =
      some (createHistoryImage p ty fd newId now) ∧
    (processImageResponse d t ty fd user cfg df sf cb rf newId now).handedToHistory =
      (if cb then some (createHistoryImage p ty fd newId now) else none) ∧
    (processImageResponse d t ty fd user cfg df sf cb rf newId now).error = none := by
  unfold extractValidated at hx
  unfold processImageResponse
  cases hext : extractImageFromResponse d t with
  | none =>
    simp [hext] at hx
  | some p0 =>
    simp only [hext] at hx
    cases hval : validateImageData p0 with
    | false =>
      simp [hval] at hx
    | true =>
      simp [hval] at hx
      subst hx
      simp [hval]

/-- Concrete successful webhook response for the C8 witness. -/
def wRespData : JsValue := .obj [(imageKey, .str (aRun 1000))]

/-- Concrete form data for the C8 witness. -/
def wFormData : FormData :=
  { title := some "T".data, intro := none, content := some "C".data,
    style := none, colour := none }

theorem processImageResponse_success_independent_witness :
    extractValidated wRespData [] = some (aRun 1000) ∧
    (processImageResponse wRespData [] .blog wFormData
        (some { id := ['u'], credits := 9 }) true true true true true ['i'] 7).success = true ∧
    (processImageResponse wRespData [] .blog wFormData
        (some { id := ['u'], credits := 9 }) true true true true true ['i'] 7).image =
      some (createHistoryImage (aRun 1000) .blog wFormData ['i'] 7) := by
  have hx : extractValidated wRespData [] = some (aRun 1000) :=
    (liveExtract_obj_image wRespData (aRun 1000) [] rfl rfl rfl
      (aRun_b64Shape 1000) (by rw [aRun_length])).2
  have h := processImageResponse_success_independent wRespData [] .blog wFormData
    (some { id := ['u'], credits := 9 }) true true true true true ['i'] 7 (aRun 1000) hx
  exact ⟨hx, h.1, h.2.1⟩

/-! ## C1 — the Found payload is long, base64-shaped and whitespace-free -/

theorem validateImageData_spec {p : Str} (h : validateImageData p = true) :
    1000 ≤ p.length ∧ b64Shape p = true := by
  unfold validateImageData at h
  split at h
  · exact absurd h (by decide)
  · split at h
    · exact absurd h (by decide)
    · split at h
      · exact absurd h (by decide)
      · next h1 h2 h3 =>
        rw [Bool.not_eq_true', Bool.not_eq_false] at h3
        exact ⟨by omega, h3⟩

theorem RH.cleanAndValidate_ok {cand : JsValue} {p : Str}
    (h : RH.cleanAndValidate cand = .ok (.ok p)) :
    1000 ≤ p.length ∧ b64Shape p = true := by
  cases cand <;> simp only [RH.cleanAndValidate] at h
  case null => exact absurd h (by simp)
  case undefined => exact absurd h (by simp)
  case bool => exact absurd h (by simp)
  case num => exact absurd h (by simp)
  case arr => exact absurd h (by simp)
  case obj => exact absurd h (by simp)
  case str c0 =>
    split at h
    · exact absurd h (by simp)
    · next c1 heq =>
      split at h
      · exact absurd h (by simp)
      · split at h
        · exact absurd h (by simp)
        · split at h
          · exact absurd h (by simp)
          · next h1 h2 h3 =>
            simp only [Except.ok.injEq, RH.ImageGenerationResponse.ok.injEq] at h
            subst h
            rw [Bool.not_eq_true', Bool.not_eq_false] at h1
            exact ⟨by omega, h1⟩

/-- C1: for every input, whenever the extraction result has outcome Found
the payload is present (`ok`/`some` carries it; `err`/`none` carries none,
by construction of the result types), has length ≥ 1000, matches the base64
shape `[A-Za-z0-9+\/]*=\x7b0,2\x7d`, and contains no whitespace character.
Stated for both the centralized handler and the live
extract-then-validate pipeline. -/
theorem extraction_found_invariant :
    (∀ (d : JsValue) (t : Str) (p : Str),
      RH.extractImageFromResponse d t = .ok p →
      1000 ≤ p.length ∧ b64Shape p = true ∧ ∀ c ∈ p, jsWsChar c = false) ∧
    (∀ (d : JsValue) (t : Str) (p : Str),
      extractValidated d t = some p →
      1000 ≤ p.length ∧ b64Shape p = true ∧ ∀ c ∈ p, jsWsChar c = false) := by
  constructor
  · intro d t p h
    unfold RH.extractImageFromResponse at h
    split at h
    · exact absurd h (by simp)
    · next cand hsel =>
      unfold RH.finishCandidate at h
      split at h
      · next r hcv =>
        subst h
        have := RH.cleanAndValidate_ok hcv
        exact ⟨this.1, this.2, b64Shape_no_ws this.2⟩
      · exact absurd h (by simp)
  · intro d t p h
    unfold extractValidated at h
    split at h
    · next p0 hext =>
      split at h
      · next hval =>
        cases h
        have := validateImageData_spec hval
        exact ⟨this.1, this.2, b64Shape_no_ws this.2⟩
      · exact absurd h (by simp)
    · exact absurd h (by simp)

theorem extraction_found_invariant_witness :
    RH.extractImageFromResponse wRespData ['x'] = .ok (aRun 1000) ∧
    extractValidated wRespData ['x'] = some (aRun 1000) ∧
    1000 ≤ (aRun 1000).length ∧ b64Shape (aRun 1000) = true ∧
    (∀ c ∈ aRun 1000, jsWsChar c = false) := by
  have htrA : jsTruthy (JsValue.str (aRun 1000)) = true := by
    simp only [jsTruthy, decide_eq_true_eq]
    exact List.ne_nil_of_length_pos (by rw [aRun_length]; omega)
  have hv : RH.selectCandidate wRespData ['x'] = some (.str (aRun 1000)) :=
    (RH.selectCandidate_obj_image wRespData ['x'] rfl rfl
      (by rw [show jsGetProp wRespData imageKey = .str (aRun 1000) from rfl]
          exact htrA)).trans (congrArg some rfl)
  have h1 : RH.extractImageFromResponse wRespData ['x'] = .ok (aRun 1000) := by
    unfold RH.extractImageFromResponse
    rw [hv]
    show RH.finishCandidate (.str (aRun 1000)) = .ok (aRun 1000)
    exact RH.finishCandidate_valid (aRun_b64Shape 1000) (by rw [aRun_length])
  have h2 : extractValidated wRespData ['x'] = some (aRun 1000) :=
    (liveExtract_obj_image wRespData (aRun 1000) ['x'] rfl rfl rfl
      (aRun_b64Shape 1000) (by rw [aRun_length])).2
  have h3 := extraction_found_invariant.1 wRespData ['x'] (aRun 1000) h1
  exact ⟨h1, h2, h3.1, h3.2.1, h3.2.2⟩

/-! ## C7 — the extractor is total: its exception branch is unreachable -/

theorem tryCatchE_const_ok {α : Type} (x : Except JsErr α) (dflt : α) :
    ∃ r, tryCatchE x (fun _ => .ok dflt) = .ok r := by
  cases x with
  | error e => exact ⟨dflt, rfl⟩
  | ok a => exact ⟨a, rfl⟩

theorem method2E_ok (t : Str) : ∃ r, method2E t = .ok r := by
  unfold method2E
  exact tryCatchE_const_ok _ _

theorem extractImageFromResponseE_ok (d : JsValue) (t : Str) :
    ∃ r, extractImageFromResponseE d t = .ok r := by
  simp only [extractImageFromResponseE]
  cases hm2 : (if method1 d = none ∧ t ≠ [] then method2E t else .ok none) with
  | error e =>
    exfalso
    by_cases hc : method1 d = none ∧ t ≠ []
    · rw [if_pos hc] at hm2
      rcases method2E_ok t with ⟨r, hr⟩
      rw [hr] at hm2
      exact Except.noConfusion hm2
    · rw [if_neg hc] at hm2
      exact Except.noConfusion hm2
  | ok c2 =>
    simp only []
    cases hsel : (method1 d <|> c2) <|>
        (if (method1 d <|> c2) = none ∧ t ≠ [] then method3 t else none) with
    | none => exact ⟨none, rfl⟩
    | some cand =>
      simp only []
      by_cases hlen : (cleanCandidate cand).length < 1000
      · rw [if_pos hlen]
        exact ⟨none, rfl⟩
      · rw [if_neg hlen]
        exact tryCatchE_const_ok _ _

/-- C7: for every `responseData` and `responseText` — empty, non-JSON,
malformed or binary-looking — the live extractor never lets an exception
escape: every throwing operation (`JSON.parse`, property reads on
`null`/`undefined`, `atob`) sits inside a `try`/`catch` or behind a guard,
so the `Except.error` branch of the instrumented semantics is unreachable
and the extractor is the total function `extractImageFromResponse`,
always returning a structured result.  (The centralized handler
additionally wraps its whole body in `try`/`catch`, modelled directly in
`RH.extractImageFromResponse`.) -/
theorem extractor_never_throws (d : JsValue) (t : Str) :
    extractImageFromResponseE d t = .ok (extractImageFromResponse d t) := by
  rcases extractImageFromResponseE_ok d t with ⟨r, hr⟩
  rw [hr]
  unfold extractImageFromResponse
  rw [hr]

/-! ## C2 — the batch loop processes every item and counts successes -/

/-- The field update `processItem` performs on the matching entry. -/
def applyOutcomeEntry (i : BulkItem) : SubmitOutcome → BulkItem
  | .found img => { i with status := .completed, imageData := some img }
  | .failure m => { i with status := .failed, error := some m }

theorem applyOutcomeEntry_id (i : BulkItem) (oc : SubmitOutcome) :
    (applyOutcomeEntry i oc).id = i.id := by
  cases oc <;> rfl

theorem applyOutcome_eq_entry (submit : BulkItem → SubmitOutcome) (it : BulkItem) :
    applyOutcome submit it = applyOutcomeEntry it (submit it) := by
  unfold applyOutcome applyOutcomeEntry
  cases submit it <;> rfl

theorem applyOutcome_id (submit : BulkItem → SubmitOutcome) (it : BulkItem) :
    (applyOutcome submit it).id = it.id := by
  rw [applyOutcome_eq_entry]
  exact applyOutcomeEntry_id it (submit it)

/-- Marking an item processing and then finalizing it equals a single
id-keyed map with `applyOutcomeEntry`. -/
theorem processItem_eq (submit : BulkItem → SubmitOutcome) (st : List BulkItem)
    (it : BulkItem) :
    processItem submit st it =
      (st.map (fun i => if i.id = it.id then applyOutcomeEntry i (submit it) else i),
       (submit it).isFound) := by
  simp only [processItem, markProcessing, finalizeItem]
  rw [List.map_map]
  congr 1
  apply List.map_congr_left
  intro i _
  by_cases h : i.id = it.id
  · simp only [Function.comp_apply, if_pos h]
    cases submit it <;> rfl
  · simp only [Function.comp_apply, if_neg h]

theorem runLoop_spec (submit : BulkItem → SubmitOutcome) :
    ∀ (todo pre : List BulkItem) (cnt : Nat),
      ((pre ++ todo).map BulkItem.id).Nodup →
      runLoop submit todo (pre.map (applyOutcome submit) ++ todo) cnt =
        ((pre ++ todo).map (applyOutcome submit),
         cnt + todo.countP (fun it => (submit it).isFound)) := by
  intro todo
  induction todo with
  | nil =>
    intro pre cnt hnd
    simp [runLoop]
  | cons it rest ih =>
    intro pre cnt hnd
    have hmapid : (pre ++ it :: rest).map BulkItem.id =
        pre.map BulkItem.id ++ it.id :: rest.map BulkItem.id := by
      simp
    rw [hmapid] at hnd
    rcases List.nodup_append.mp hnd with ⟨hnd1, hnd2, hdisj⟩
    have hit_pre : it.id ∉ pre.map BulkItem.id := by
      intro hm
      exact hdisj hm (List.mem_cons_self _ _)
    have hit_rest : it.id ∉ rest.map BulkItem.id :=
      (List.nodup_cons.mp hnd2).1
    simp only [runLoop, processItem_eq]
    have hstep : (pre.map (applyOutcome submit) ++ it :: rest).map
        (fun i => if i.id = it.id then applyOutcomeEntry i (submit it) else i) =
        pre.map (applyOutcome submit) ++ applyOutcome submit it :: rest := by
      rw [List.map_append]
      congr 1
      · rw [List.map_map]
        apply List.map_congr_left
        intro p hp
        have hne : (applyOutcome submit p).id ≠ it.id := by
          rw [applyOutcome_id]
          intro he
          exact hit_pre (he ▸ List.mem_map_of_mem BulkItem.id hp)
        simp only [Function.comp_apply, if_neg hne]
      · rw [List.map_cons, if_pos rfl, ← applyOutcome_eq_entry]
        congr 1
        have hrest : ∀ r ∈ rest,
            (if r.id = it.id then applyOutcomeEntry r (submit it) else r) = id r := by
          intro r hr
          have hne : r.id ≠ it.id := by
            intro he
            exact hit_rest (he ▸ List.mem_map_of_mem BulkItem.id hr)
          rw [if_neg hne]
          rfl
        rw [List.map_congr_left hrest, List.map_id]
    rw [hstep]
    have hconv : pre.map (applyOutcome submit) ++ applyOutcome submit it :: rest =
        (pre ++ [it]).map (applyOutcome submit) ++ rest := by
      simp
    rw [hconv]
    have hassoc : (pre ++ [it]) ++ rest = pre ++ it :: rest := by
      rw [List.append_assoc, List.singleton_append]
    have hnd2' : (((pre ++ [it]) ++ rest).map BulkItem.id).Nodup := by
      rw [hassoc, hmapid]
      exact hnd
    have hih := ih (pre ++ [it]) (cnt + (if (submit it).isFound then 1 else 0)) hnd2'
    rw [hih, hassoc]
    congr 1
    rw [List.countP_cons]
    cases hf : (submit it).isFound <;> simp [hf]
    omega

/-- C2: for every non-empty list of batch items all starting Pending (with
the distinct ids the modal assigns at creation, contents passing the
pre-loop validation and a sufficient credit balance), the loop reports
`total = items.length` and `succeeded` = the number of items whose
submission settled with a Found extraction; the final list is exactly the
input with each item moved to Completed (with its image) or Failed (with
its message) — so no item is left Pending/Processing and no failure aborts
the loop early. -/
theorem startBulkProcessing_spec (user : Option User) (imageType : ImageType)
    (items : List BulkItem) (submit : BulkItem → SubmitOutcome)
    (hne : items ≠ [])
    (_hpend : ∀ it ∈ items, it.status = .pending)
    (hvalid : ∀ it ∈ items, validBulkItem imageType it = true)
    (hcred : ∀ u, user = some u → ¬(u.credits < (items.length : Int) * CREDIT_COSTS imageType))
    (hnd : (items.map BulkItem.id).Nodup) :
    startBulkProcessing user imageType items submit =
      some (items.map (applyOutcome submit),
            { succeeded := items.countP (fun it => (submit it).isFound),
              total := items.length }) ∧
    ∀ b ∈ items.map (applyOutcome submit),
      b.status = .completed ∨ b.status = .failed := by
  constructor
  · unfold startBulkProcessing
    rw [if_neg (fun h => hne (List.length_eq_zero.mp h))]
    have hfil : (items.filter (fun it => !validBulkItem imageType it)).length = 0 := by
      rw [List.length_eq_zero, List.filter_eq_nil_iff]
      intro a ha
      rw [hvalid a ha]
      decide
    rw [if_neg (fun h => h hfil)]
    have hcond : ∀ (uo : Option User),
        (∀ u, uo = some u →
          ¬(u.credits < (items.length : Int) * CREDIT_COSTS imageType)) →
        ¬((match uo with
            | some u => decide (u.credits < (items.length : Int) * CREDIT_COSTS imageType)
            | none => false) = true) := by
      intro uo hc
      cases uo with
      | none => simp
      | some u =>
        simp only [decide_eq_true_eq]
        exact hc u rfl
    rw [if_neg (hcond user hcred)]
    have hrl := runLoop_spec submit items [] 0 (by simpa using hnd)
    simp only [List.map_nil, List.nil_append] at hrl
    rw [hrl]
    simp
  · intro b hb
    rcases List.mem_map.mp hb with ⟨it, _, rfl⟩
    rw [applyOutcome_eq_entry]
    cases submit it with
    | found img => exact Or.inl rfl
    | failure m => exact Or.inr rfl

/-- Three concrete batch items (C2 witness data). -/
def wItems : List BulkItem :=
  [{ id := ['a'], title := some ['t'], content := ['c'], style := none, colour := none,
     status := .pending, imageData := none, error := none },
   { id := ['b'], title := some ['t'], content := ['c'], style := none, colour := none,
     status := .pending, imageData := none, error := none },
   { id := ['c'], title := some ['t'], content := ['c'], style := none, colour := none,
     status := .pending, imageData := none, error := none }]

/-- Submission oracle settling Found, rejected, Found (C2 witness data). -/
def wSubmit : BulkItem → SubmitOutcome := fun it =>
  if it.id = ['b'] then .failure "HTTP 500: Internal Server Error. ".data
  else .found ['X']

theorem startBulkProcessing_spec_witness :
    startBulkProcessing (some { id := ['u'], credits := 15 }) .blog wItems wSubmit =
      some (wItems.map (applyOutcome wSubmit), { succeeded := 2, total := 3 }) ∧
    (wItems.map (applyOutcome wSubmit)).map BulkItem.status =
      [.completed, .failed, .completed] := by
  have h := (startBulkProcessing_spec (some { id := ['u'], credits := 15 }) .blog wItems
    wSubmit (by decide) (by decide) (by decide)
    (fun u hu => by cases hu; decide) (by decide)).1
  constructor
  · rw [h]
    have h2 : wItems.countP (fun it => (wSubmit it).isFound) = 2 := by decide
    have h3 : wItems.length = 3 := rfl
    rw [h2, h3]
  · decide

/-! ## C4 — bare base64 strings and the length boundary -/

/-- C4 (counterexample to the claim as stated): a bare 999-character
base64-alphabet string yields NotFound (`noImageMsg`), not Invalid, and a
bare 1000-character one also yields NotFound, not Found — on the live
pipeline too. -/
theorem bare_base64_boundary_counterexample :
    RH.pipeline (aRun 999) = .err RH.noImageMsg ∧
    RH.pipeline (aRun 1000) = .err RH.noImageMsg ∧
    livePipeline (aRun 1000) = none := by
  refine ⟨RH.pipeline_bare_notfound ?_ (aRun_all_b64 999) rfl (by rw [aRun_length]; omega),
    RH.pipeline_bare_notfound ?_ (aRun_all_b64 1000) rfl (by rw [aRun_length]),
    livePipeline_bare_none ?_ (aRun_all_b64 1000) rfl⟩
  · exact List.ne_nil_of_length_pos (by rw [aRun_length]; omega)
  · exact List.ne_nil_of_length_pos (by rw [aRun_length]; omega)
  · exact List.ne_nil_of_length_pos (by rw [aRun_length]; omega)

/-- C4 (amended): for a base64-alphabet input that does not parse as JSON,
the centralized pipeline returns NotFound (never Invalid) for every length
up to and including 1000, and Found with the whole string as payload from
length 1001 on; the live service pipeline returns NotFound for all such
bare strings, whatever their length. -/
theorem bare_base64_boundary (s : Str) :
    (s ≠ [] → (∀ c ∈ s, isB64Char c = true) → jsonParse s = none →
      s.length ≤ 1000 →
      RH.pipeline s = .err RH.noImageMsg ∧ livePipeline s = none) ∧
    (b64Shape s = true → jsonParse s = none → 1001 ≤ s.length →
      RH.pipeline s = .ok s ∧ livePipeline s = none) := by
  constructor
  · intro hne hall hp hlen
    exact ⟨RH.pipeline_bare_notfound hne hall hp hlen,
      livePipeline_bare_none hne hall hp⟩
  · intro hsh hp hlen
    have hne : s ≠ [] := by
      intro h
      rw [h] at hlen
      simp at hlen
    have hall : ∀ c ∈ s, isB64Char c = true ∨ c = '=' := b64Shape_mem hsh
    refine ⟨RH.pipeline_bare_found hsh hp hlen, ?_⟩
    have htrim : jsTrim s = s := jsTrim_eq_self_of_no_ws (b64Shape_no_ws hsh)
    have hq : ∀ c ∈ s, c ≠ '"' := fun c hc he => by
      subst he
      rcases hall _ hc with h1 | h1
      · exact absurd h1 (by decide)
      · exact absurd h1 (by decide)
    unfold livePipeline
    have hpt : parseOrTrim s = .str s := by
      unfold parseOrTrim
      rw [hp, htrim]
    rw [hpt]
    unfold extractValidated
    rw [liveExtract_str_none hne hp hq]

theorem bare_base64_boundary_witness :
    RH.pipeline (aRun 1001) = .ok (aRun 1001) ∧ livePipeline (aRun 1001) = none ∧
    RH.pipeline (aRun 999) = .err RH.noImageMsg := by
  have h2 := (bare_base64_boundary (aRun 1001)).2 (aRun_b64Shape 1001)
    rfl (by rw [aRun_length])
  have h1 := (bare_base64_boundary (aRun 999)).1
    (List.ne_nil_of_length_pos (by rw [aRun_length]; omega)) (aRun_all_b64 999)
    rfl (by rw [aRun_length]; omega)
  exact ⟨h2.1, h2.2, h1.1⟩

/-! ## C5 — bare JSON strings as candidate payload -/

/-- C5 (counterexample to the claim as stated): the input is a bare JSON
string of 200 > 100 characters, yet the centralized pipeline returns
NotFound — the bare-string fallback requires length > 1000, so the string
is never treated as a candidate payload (which would have produced the
too-short Invalid diagnostic instead). -/
theorem bare_string_threshold_counterexample :
    jsonParse ('"' :: (aRun 200 ++ ['"'])) = some (.str (aRun 200)) ∧
    (aRun 200).length > 100 ∧
    RH.pipeline ('"' :: (aRun 200 ++ ['"'])) = .err RH.noImageMsg :=
  ⟨rfl, by decide, by decide⟩

/-- C5 (amended): when `responseData` is a bare string (as the callers
produce for a response that parses to a bare JSON string, or fails to parse)
whose own reparse yields no truthy `image` property, the centralized
extractor treats the entire string as the candidate payload — handing it to
the clean-and-validate block — exactly when its length exceeds 1000 (not
100); at 1000 or below it returns NotFound without selecting a candidate. -/
theorem RH.extract_bare_string (s t : Str)
    (hni : ∀ v, jsonParse s = some v → jsTruthy (jsGetProp v imageKey) = false) :
    (1000 < s.length →
      RH.extractImageFromResponse (.str s) t = RH.finishCandidate (.str s)) ∧
    (s.length ≤ 1000 →
      RH.extractImageFromResponse (.str s) t = .err RH.noImageMsg) := by
  unfold RH.extractImageFromResponse
  rw [RH.selectCandidate_str]
  cases hp : jsonParse s with
  | none =>
    constructor
    · intro hl
      rw [if_pos hl]
    · intro hl
      rw [if_neg (by omega)]
  | some v =>
    have hA : ¬(jsTruthy v = true ∧ jsTruthy (jsGetProp v imageKey) = true) := by
      intro hcon
      rw [hni v hp] at hcon
      exact absurd hcon.2 (by decide)
    simp only []
    rw [if_neg hA]
    constructor
    · intro hl
      rw [if_pos hl]
    · intro hl
      rw [if_neg (by omega)]

theorem RH.extract_bare_string_witness :
    RH.extractImageFromResponse (.str (aRun 1001)) ['x'] =
      RH.finishCandidate (.str (aRun 1001)) ∧
    RH.finishCandidate (.str (aRun 1001)) = .ok (aRun 1001) ∧
    RH.extractImageFromResponse (.str (aRun 1000)) ['x'] = .err RH.noImageMsg := by
  have hni1 : ∀ v, jsonParse (aRun 1001) = some v →
      jsTruthy (jsGetProp v imageKey) = false := by
    intro v hv
    rw [show jsonParse (aRun 1001) = none from rfl] at hv
    exact Option.noConfusion hv
  have hni0 : ∀ v, jsonParse (aRun 1000) = some v →
      jsTruthy (jsGetProp v imageKey) = false := by
    intro v hv
    rw [show jsonParse (aRun 1000) = none from rfl] at hv
    exact Option.noConfusion hv
  exact ⟨(RH.extract_bare_string (aRun 1001) ['x'] hni1).1 (by rw [aRun_length]; omega),
    RH.finishCandidate_valid (aRun_b64Shape 1001) (by rw [aRun_length]; omega),
    (RH.extract_bare_string (aRun 1000) ['x'] hni0).2 (by rw [aRun_length])⟩

/-! ## C6 — data-URL prefix roundtrip -/

/-- The `data:image/png;base64,` prefix of the C6 roundtrip. -/
def dataUrlPng : Str := "data:image/png;base64,".data

/-- C6: wrapping any valid base64 string of length ≥ 1000 in a
`data:image/png;base64,` prefix and extracting returns Found with exactly
the unwrapped string: the centralized pipeline selects the whole text as
candidate and the cleaning step (`split(',')` — a no-op beyond the prefix
since base64 contains no comma — plus whitespace removal) recovers `s`;
the live extractor's `cleanCandidate` performs the same recovery. -/
theorem dataUrl_roundtrip (s : Str) (hsh : b64Shape s = true)
    (hlen : 1000 ≤ s.length) :
    RH.pipeline (dataUrlPng ++ s) = .ok s ∧
    cleanCandidate (dataUrlPng ++ s) = s := by
  have hpws : ∀ c ∈ dataUrlPng, jsWsChar c = false := by decide
  have hws : ∀ c ∈ dataUrlPng ++ s, jsWsChar c = false := by
    intro c hc
    rcases List.mem_append.mp hc with h1 | h1
    · exact hpws c h1
    · exact b64Shape_no_ws hsh c h1
  have htrim : jsTrim (dataUrlPng ++ s) = dataUrlPng ++ s := jsTrim_eq_self_of_no_ws hws
  have hform : dataUrlPng ++ s = 'd' :: ("ata:image/png;base64,".data ++ s) := by
    rw [show dataUrlPng = 'd' :: "ata:image/png;base64,".data from rfl, List.cons_append]
  have hne : dataUrlPng ++ s ≠ [] := by
    rw [hform]
    exact List.cons_ne_nil _ _
  have hp : jsonParse (dataUrlPng ++ s) = none := by
    rw [hform]
    exact jsonParse_d _
  have hpre : dataUrlPat.isPrefixOf (dataUrlPng ++ s) = true := by
    rw [List.isPrefixOf_iff_prefix,
        show dataUrlPng = dataUrlPat ++ "png;base64,".data from rfl, List.append_assoc]
    exact List.prefix_append _ _
  have hsplit : splitOnChar ',' (dataUrlPng ++ s) = ["data:image/png;base64".data, s] := by
    rw [show dataUrlPng = "data:image/png;base64".data ++ [','] from rfl, List.append_assoc,
        List.singleton_append, splitOnChar_append (by decide),
        splitOnChar_eq_single (b64Shape_ne_comma hsh)]
  have hget : (splitOnChar ',' (dataUrlPng ++ s)).get? 1 = some s := by
    rw [hsplit]
    rfl
  have hcv : RH.cleanAndValidate (.str (dataUrlPng ++ s)) = .ok (.ok s) := by
    simp only [RH.cleanAndValidate]
    rw [if_pos hpre, hget]
    simp only [removeWs_eq_self_of_shape hsh]
    rw [if_neg (by simp [hsh]), if_neg (by omega),
        if_neg (by simp [atobOk_take100_of_shape hsh (by omega)])]
  constructor
  · unfold RH.pipeline
    rw [if_neg (fun h => h.elim hne (fun h2 => hne (by rwa [htrim] at h2)))]
    have hpt : parseOrTrim (dataUrlPng ++ s) = .str (dataUrlPng ++ s) := by
      unfold parseOrTrim
      rw [hp, htrim]
    rw [hpt]
    unfold RH.extractImageFromResponse
    rw [RH.selectCandidate_str, hp,
        if_pos (by rw [List.length_append, show dataUrlPng.length = 22 from rfl]; omega)]
    show RH.finishCandidate (.str (dataUrlPng ++ s)) = .ok s
    unfold RH.finishCandidate
    rw [hcv]
  · unfold cleanCandidate
    rw [if_pos hpre, hget]
    exact removeWs_eq_self_of_shape hsh

theorem dataUrl_roundtrip_witness :
    b64Shape (aRun 1000) = true ∧ 1000 ≤ (aRun 1000).length ∧
    RH.pipeline (dataUrlPng ++ aRun 1000) = .ok (aRun 1000) ∧
    cleanCandidate (dataUrlPng ++ aRun 1000) = aRun 1000 := by
  have h := dataUrl_roundtrip (aRun 1000) (aRun_b64Shape 1000) (by rw [aRun_length])
  exact ⟨aRun_b64Shape 1000, by rw [aRun_length], h.1, h.2⟩

/-! ## C3 — key probing priority -/

/-- C3 (counterexample to the claim as stated): an object carrying a
string-valued top-level `data` and a `base64` key.  The claim's priority
order says `data` (as a string) wins before `base64`, so extraction should
return the `A`s stored under `data`; the centralized extractor never
consults a string-valued top-level `data` and returns the `base64` value
(1000 `B`s) instead; the live pipeline — probing only `image` — finds
nothing at all on a raw response whose object carries only a `data` string. -/
theorem key_priority_counterexample :
    RH.extractImageFromResponse
        (.obj [(dataKey, .str (aRun 1000)), (base64Key, .str (List.replicate 1000 'B'))])
        ['x'] = .ok (List.replicate 1000 'B') ∧
    livePipeline ("\x7b\"data\":\"".data ++ aRun 150 ++ "\"\x7d".data) = none := by
  have hB : b64Shape (List.replicate 1000 'B') = true := by
    apply b64Shape_of_all
    intro c hc
    rw [List.eq_of_mem_replicate hc]
    decide
  have hv : RH.selectCandidate
      (.obj [(dataKey, .str (aRun 1000)), (base64Key, .str (List.replicate 1000 'B'))])
      ['x'] = some (.str (List.replicate 1000 'B')) :=
    (RH.selectCandidate_obj_base64
      (.obj [(dataKey, .str (aRun 1000)), (base64Key, .str (List.replicate 1000 'B'))])
      ['x'] rfl rfl rfl
      (by rw [show jsGetProp
          (.obj [(dataKey, .str (aRun 1000)), (base64Key, .str (List.replicate 1000 'B'))])
          base64Key = .str (List.replicate 1000 'B') from rfl]
          simp only [jsTruthy, decide_eq_true_eq]
          exact List.ne_nil_of_length_pos (by rw [List.length_replicate]; omega))).trans
      (congrArg some rfl)
  constructor
  · unfold RH.extractImageFromResponse
    rw [hv]
    show RH.finishCandidate (.str (List.replicate 1000 'B')) =
      .ok (List.replicate 1000 'B')
    exact RH.finishCandidate_valid hB (by rw [List.length_replicate])
  · decide

/-- C3 (amended): the centralized extractor probes, in order, the top-level
`image` value, then the nested `data.image` value, then top-level `base64`;
a string-valued top-level `data` is never consulted.  The live extractor
probes only the `image` key (directly, by re-parsing the text, and by
regex), so an object offering only `data`/`base64` extracts nothing. -/
theorem extractor_key_priority (X Y Z : Str) (t : Str)
    (hX : b64Shape X = true) (hXl : 1000 ≤ X.length)
    (hY : b64Shape Y = true) (hYl : 1000 ≤ Y.length)
    (hZ : b64Shape Z = true) (hZl : 1000 ≤ Z.length) :
    RH.extractImageFromResponse
        (.obj [(imageKey, .str X), (dataKey, .obj [(imageKey, .str Y)]),
               (base64Key, .str Z)]) t = .ok X ∧
    RH.extractImageFromResponse
        (.obj [(dataKey, .obj [(imageKey, .str Y)]), (base64Key, .str Z)]) t = .ok Y ∧
    RH.extractImageFromResponse (.obj [(base64Key, .str Z)]) t = .ok Z ∧
    (∀ W : JsValue, extractValidated (.obj [(dataKey, W), (base64Key, W)]) [] = none) := by
  have htrX : jsTruthy (JsValue.str X) = true := by
    simp only [jsTruthy, decide_eq_true_eq]
    exact List.ne_nil_of_length_pos (by omega)
  have htrY : jsTruthy (JsValue.str Y) = true := by
    simp only [jsTruthy, decide_eq_true_eq]
    exact List.ne_nil_of_length_pos (by omega)
  have htrZ : jsTruthy (JsValue.str Z) = true := by
    simp only [jsTruthy, decide_eq_true_eq]
    exact List.ne_nil_of_length_pos (by omega)
  refine ⟨?_, ?_, ?_, fun W => rfl⟩
  · have hv : RH.selectCandidate
        (.obj [(imageKey, .str X), (dataKey, .obj [(imageKey, .str Y)]),
               (base64Key, .str Z)]) t = some (.str X) :=
      (RH.selectCandidate_obj_image
        (.obj [(imageKey, .str X), (dataKey, .obj [(imageKey, .str Y)]),
               (base64Key, .str Z)]) t rfl rfl (by rw [show jsGetProp
        (.obj [(imageKey, .str X), (dataKey, .obj [(imageKey, .str Y)]),
               (base64Key, .str Z)]) imageKey = .str X from rfl]; exact htrX)).trans
        (congrArg some rfl)
    unfold RH.extractImageFromResponse
    rw [hv]
    show RH.finishCandidate (.str X) = .ok X
    exact RH.finishCandidate_valid hX hXl
  · have hv : RH.selectCandidate
        (.obj [(dataKey, .obj [(imageKey, .str Y)]), (base64Key, .str Z)]) t =
        some (.str Y) :=
      (RH.selectCandidate_obj_dataImage
        (.obj [(dataKey, .obj [(imageKey, .str Y)]), (base64Key, .str Z)]) t rfl rfl rfl
        (by rw [show jsGetProp (jsGetProp
          (.obj [(dataKey, .obj [(imageKey, .str Y)]), (base64Key, .str Z)]) dataKey)
          imageKey = .str Y from rfl]; exact htrY)).trans (congrArg some rfl)
    unfold RH.extractImageFromResponse
    rw [hv]
    show RH.finishCandidate (.str Y) = .ok Y
    exact RH.finishCandidate_valid hY hYl
  · have hv : RH.selectCandidate (.obj [(base64Key, .str Z)]) t = some (.str Z) :=
      (RH.selectCandidate_obj_base64 (.obj [(base64Key, .str Z)]) t rfl rfl rfl
        (by rw [show jsGetProp (.obj [(base64Key, .str Z)]) base64Key = .str Z from rfl]
            exact htrZ)).trans (congrArg some rfl)
    unfold RH.extractImageFromResponse
    rw [hv]
    show RH.finishCandidate (.str Z) = .ok Z
    exact RH.finishCandidate_valid hZ hZl

theorem extractor_key_priority_witness :
    RH.extractImageFromResponse
        (.obj [(imageKey, .str (aRun 1000)),
               (dataKey, .obj [(imageKey, .str (List.replicate 1000 'B'))]),
               (base64Key, .str (List.replicate 1000 'C'))]) ['x'] = .ok (aRun 1000) ∧
    RH.extractImageFromResponse
        (.obj [(dataKey, .obj [(imageKey, .str (List.replicate 1000 'B'))]),
               (base64Key, .str (List.replicate 1000 'C'))]) ['x'] =
      .ok (List.replicate 1000 'B') ∧
    RH.extractImageFromResponse
        (.obj [(base64Key, .str (List.replicate 1000 'C'))]) ['x'] =
      .ok (List.replicate 1000 'C') ∧
    extractValidated (.obj [(dataKey, .bool true), (base64Key, .bool true)]) [] = none := by
  have hB : b64Shape (List.replicate 1000 'B') = true := by
    apply b64Shape_of_all
    intro c hc
    rw [List.eq_of_mem_replicate hc]
    decide
  have hC : b64Shape (List.replicate 1000 'C') = true := by
    apply b64Shape_of_all
    intro c hc
    rw [List.eq_of_mem_replicate hc]
    decide
  have h := extractor_key_priority (aRun 1000) (List.replicate 1000 'B')
    (List.replicate 1000 'C') ['x'] (aRun_b64Shape 1000) (by rw [aRun_length])
    hB (by rw [List.length_replicate]) hC (by rw [List.length_replicate])
  exact ⟨h.1, h.2.1, h.2.2.1, h.2.2.2 (.bool true)⟩
